import Mathlib

/-!
# Verification of the lori-llm-local agent core

A shallow embedding, in Lean 4, of the agent core of the repository
`Tkzito/lori-llm-local`:

* the path sandbox (`_resolve_safe_path`, `_resolve_readable_path`,
  `_resolve_write_path` and `_confirm_required_response` from
  `assistant_cli/tools.py`),
* the tool dispatcher (`call_tool` and its alias table, together with the
  static registry of tool names and declared parameter keys),
* tool-call extraction (`extract_tool_call` from `assistant_cli/agent.py`),
* the heuristic shortcut engine (`Agent._heuristic_tool_calls` and
  `Agent._run_heuristic_shortcuts`),
* the agent loop (`Agent.run`).

Python text is modelled as `List Char`; Python `dict`s are association
lists that keep insertion order (as Python dicts do); JSON values are the
inductive type `Json`.  External effects (the model backend, the bodies of
the registered tools, the interactive `input()` prompt, filesystem
resolution of path strings) are oracles supplied as function parameters, so
the embedded control flow is exactly the source's while everything the
environment decides stays universally quantified.
-/

set_option maxHeartbeats 1000000

namespace Lori

/-- Characters of a string literal, the form in which all Python text is
handled in this development. -/
def cs (s : String) : List Char := s.toList

/-- Python `\s` / `str.strip` whitespace for the ASCII range (the only
range exercised here; Python also strips some further Unicode spaces). -/
def pyIsSpace (c : Char) : Bool :=
  c == ' ' || c == '\t' || c == '\n' || c == '\r' || c == '\x0b' || c == '\x0c'

/-- Python `str.lower` on the Basic-Latin and Latin-1 ranges (the ranges
that occur in the repository's prompts and rule tables). -/
def pyLowerChar (c : Char) : Char :=
  if 'A' ≤ c ∧ c ≤ 'Z' then Char.ofNat (c.toNat + 32)
  else if 'À' ≤ c ∧ c ≤ 'Þ' ∧ c ≠ '×' then Char.ofNat (c.toNat + 32)
  else c

def pyLower (s : List Char) : List Char := s.map pyLowerChar

/-- Python `str.strip()` (no arguments): drop whitespace at both ends. -/
def pyStrip (s : List Char) : List Char :=
  ((s.dropWhile pyIsSpace).reverse.dropWhile pyIsSpace).reverse

/-- Python `str.strip(chars)`: drop the given characters at both ends. -/
def pyStripChars (bad : List Char) (s : List Char) : List Char :=
  (((s.dropWhile (bad.contains ·)).reverse.dropWhile (bad.contains ·))).reverse

/-- Prefix test on character lists.  (The core `List.isPrefixOf` pattern
order blocks definitional reduction when only the pattern is concrete, so
it is spelled out here with the pattern examined first.) -/
def startsList : List Char → List Char → Bool
  | [], _ => true
  | _ :: _, [] => false
  | a :: pre, b :: s => a == b && startsList pre s

/-- Python `needle in haystack` on strings (substring containment). -/
def isSubstr (needle hay : List Char) : Bool :=
  match hay with
  | [] => needle.isEmpty
  | _ :: t => startsList needle hay || isSubstr needle t

/-- Python `str.startswith`. -/
def pyStarts (pre s : List Char) : Bool := startsList pre s

/-- Decimal digits of a natural number. -/
def natChars (n : Nat) : List Char := (Nat.toDigits 10 n)

/-- Python `str`/`json.dumps` rendering of an integer. -/
def intChars (i : Int) : List Char :=
  if i < 0 then '-' :: natChars i.natAbs else natChars i.natAbs

/-- JSON values.  `fnum` keeps the raw lexeme of a non-integral numeric
literal: the repository never lets such a value reach any behaviour the
claims talk about, and floating point itself is out of scope. -/
inductive Json where
  | null
  | bool (b : Bool)
  | num (n : Int)
  | fnum (lex : List Char)
  | str (s : List Char)
  | arr (xs : List Json)
  | obj (kvs : List (List Char × Json))

/-- Python dict with string keys and JSON values, in insertion order. -/
abbrev ArgsMap := List (List Char × Json)

/-- `d.get(k)` on an ordered dict. -/
def dictGet (kvs : ArgsMap) (k : List Char) : Option Json :=
  match kvs with
  | [] => none
  | (k', v) :: t => if k' == k then some v else dictGet t k

/-- `d[k] = v` on an ordered dict: update in place, else append. -/
def dictSet (kvs : ArgsMap) (k : List Char) (v : Json) : ArgsMap :=
  match kvs with
  | [] => [(k, v)]
  | (k', v') :: t => if k' == k then (k', v) :: t else (k', v') :: dictSet t k v

/-- `d.pop(k)` (key removal part) on an ordered dict. -/
def dictDrop (kvs : ArgsMap) (k : List Char) : ArgsMap :=
  match kvs with
  | [] => []
  | (k', v') :: t => if k' == k then t else (k', v') :: dictDrop t k

def dictHas (kvs : ArgsMap) (k : List Char) : Bool := (dictGet kvs k).isSome

/-- `obj.get(k)` on a JSON value known to be used as a dict; `none` when
the value is not an object or the key is absent. -/
def jGet (j : Json) (k : List Char) : Option Json :=
  match j with
  | .obj kvs => dictGet kvs k
  | _ => none

/-- `obj.get(k, dflt)`. -/
def jGetD (j : Json) (k : List Char) (dflt : Json) : Json :=
  match jGet j k with
  | some v => v
  | none => dflt

/-- Python truthiness of a JSON value. -/
def pyTruthy (j : Json) : Bool :=
  match j with
  | .null => false
  | .bool b => b
  | .num n => n != 0
  | .fnum lex => !(lex == cs "0.0")
  | .str s => !s.isEmpty
  | .arr xs => !xs.isEmpty
  | .obj kvs => !kvs.isEmpty

/-- `a or b` on JSON values. -/
def pyOrElse (a b : Json) : Json := if pyTruthy a then a else b

/-- Python `str()` of a JSON value, for the cases the agent exercises
(strings, `None`, booleans, integers).  Container and float reprs are
approximated by their JSON dump; no claim depends on them. -/
def pyStrJson (j : Json) : List Char :=
  match j with
  | .str s => s
  | .null => cs "None"
  | .bool true => cs "True"
  | .bool false => cs "False"
  | .num n => intChars n
  | .fnum lex => lex
  | _ => cs "<obj>"

/-- Lower-case hexadecimal digit. -/
def hexDigit (n : Nat) : Char :=
  if n < 10 then Char.ofNat ('0'.toNat + n) else Char.ofNat ('a'.toNat + (n - 10))

/-- `json.dumps` escaping of one string character (`ensure_ascii=False`). -/
def jsonEscChar (c : Char) : List Char :=
  if c == '"' then ['\\', '"']
  else if c == '\\' then ['\\', '\\']
  else if c == '\n' then ['\\', 'n']
  else if c == '\r' then ['\\', 'r']
  else if c == '\t' then ['\\', 't']
  else if c == '\x08' then ['\\', 'b']
  else if c == '\x0c' then ['\\', 'f']
  else if c.toNat < 32 then
    '\\' :: 'u' :: '0' :: '0' :: hexDigit (c.toNat / 16) :: [hexDigit (c.toNat % 16)]
  else [c]

def jsonEscStr (s : List Char) : List Char :=
  '"' :: (s.flatMap jsonEscChar) ++ ['"']

/-- Interleave `", "` between rendered items, as `json.dumps` does with its
default separators. -/
def joinCommaSp (xs : List (List Char)) : List Char :=
  match xs with
  | [] => []
  | [x] => x
  | x :: t => x ++ cs ", " ++ joinCommaSp t

mutual

/-- `json.dumps(..., ensure_ascii=False)` of a JSON value.  Fuel bounds
the nesting depth only (so the recursion is structural and reduces
definitionally); `jsonDump` below supplies depth ample for everything the
agent ever serialises. -/
def jsonDumpF : Nat → Json → List Char
  | _, .null => cs "null"
  | _, .bool true => cs "true"
  | _, .bool false => cs "false"
  | _, .num n => intChars n
  | _, .fnum lex => lex
  | _, .str s => jsonEscStr s
  | 0, .arr _ => cs "<depth>"
  | 0, .obj _ => cs "<depth>"
  | fuel + 1, .arr xs => '[' :: joinCommaSp (jsonDumpListF fuel xs) ++ [']']
  | fuel + 1, .obj kvs => '{' :: joinCommaSp (jsonDumpKvsF fuel kvs) ++ ['}']

def jsonDumpListF : Nat → List Json → List (List Char)
  | _, [] => []
  | fuel, x :: t => jsonDumpF fuel x :: jsonDumpListF fuel t

def jsonDumpKvsF : Nat → List (List Char × Json) → List (List Char)
  | _, [] => []
  | fuel, (k, v) :: t => (jsonEscStr k ++ cs ": " ++ jsonDumpF fuel v) :: jsonDumpKvsF fuel t

end

def jsonDump (j : Json) : List Char := jsonDumpF 1000 j

/-! ## `json.loads` (strict mode, as the stdlib `json` module used by the
repository).  Fuel-based recursion; each step consumes at least one
character, so `length + 1` fuel always suffices. -/

def jsonWsChar (c : Char) : Bool :=
  c == ' ' || c == '\t' || c == '\n' || c == '\r'

def jsonSkipWs (s : List Char) : List Char := s.dropWhile jsonWsChar

def isDigitCh (c : Char) : Bool := '0' ≤ c ∧ c ≤ '9'

def hexVal (c : Char) : Option Nat :=
  if '0' ≤ c ∧ c ≤ '9' then some (c.toNat - '0'.toNat)
  else if 'a' ≤ c ∧ c ≤ 'f' then some (c.toNat - 'a'.toNat + 10)
  else if 'A' ≤ c ∧ c ≤ 'F' then some (c.toNat - 'A'.toNat + 10)
  else none

def natFromDigits (ds : List Char) : Nat :=
  ds.foldl (fun a c => a * 10 + (c.toNat - '0'.toNat)) 0

/-- Body of a JSON string, after the opening quote.  Strict mode: raw
control characters are rejected; `\uXXXX` becomes the code point (surrogate
pairing is not modelled; no claim exercises it). -/
def parseJStrBody : Nat → List Char → Option (List Char × List Char)
  | 0, _ => none
  | _, [] => none
  | fuel + 1, c :: t =>
    if c == '"' then some ([], t)
    else if c == '\\' then
      match t with
      | [] => none
      | e :: t2 =>
        if e == 'u' then
          match t2 with
          | a :: b :: c2 :: d :: t3 =>
            match hexVal a, hexVal b, hexVal c2, hexVal d with
            | some ha, some hb, some hc, some hd =>
              (parseJStrBody fuel t3).map
                (fun p => (Char.ofNat (((ha * 16 + hb) * 16 + hc) * 16 + hd) :: p.1, p.2))
            | _, _, _, _ => none
          | _ => none
        else
          match
            (if e == '"' then some '"'
             else if e == '\\' then some '\\'
             else if e == '/' then some '/'
             else if e == 'b' then some '\x08'
             else if e == 'f' then some '\x0c'
             else if e == 'n' then some '\n'
             else if e == 'r' then some '\r'
             else if e == 't' then some '\t'
             else none) with
          | some d => (parseJStrBody fuel t2).map (fun p => (d :: p.1, p.2))
          | none => none
    else if c.toNat < 32 then none
    else (parseJStrBody fuel t).map (fun p => (c :: p.1, p.2))

/-- The number regex of the stdlib `json` scanner:
integer part `0 | [1-9][0-9]*` with optional sign, then optional fraction
and exponent; a pure integer yields an `int`, anything else a float
(kept as its lexeme). -/
def parseJNum (s : List Char) : Option (Json × List Char) :=
  let (sgn, s1) := match s with
    | '-' :: t => ((['-'] : List Char), t)
    | _ => ([], s)
  match s1 with
  | [] => none
  | c :: t =>
    if !(isDigitCh c) then none
    else
      let (intPart, rest) :=
        if c == '0' then ([c], t)
        else (c :: t.takeWhile isDigitCh, t.dropWhile isDigitCh)
      let (fracPart, rest2) := match rest with
        | '.' :: u =>
          let ds := u.takeWhile isDigitCh
          if ds.isEmpty then (([] : List Char), rest)
          else ('.' :: ds, u.dropWhile isDigitCh)
        | _ => ([], rest)
      let (expPart, rest3) := match rest2 with
        | e :: u =>
          if e == 'e' || e == 'E' then
            let (es, u2) := match u with
              | '+' :: w => ((['+'] : List Char), w)
              | '-' :: w => ((['-'] : List Char), w)
              | _ => ([], u)
            let ds := u2.takeWhile isDigitCh
            if ds.isEmpty then (([] : List Char), rest2)
            else (e :: es ++ ds, u2.dropWhile isDigitCh)
          else ([], rest2)
        | _ => ([], rest2)
      if fracPart.isEmpty ∧ expPart.isEmpty then
        let v : Int := Int.ofNat (natFromDigits intPart)
        some (.num (if sgn.isEmpty then v else -v), rest3)
      else
        some (.fnum (sgn ++ intPart ++ fracPart ++ expPart), rest3)

mutual

/-- One JSON value starting at the head of the input (callers have already
skipped whitespace, as `json.loads` does). -/
def parseJVal : Nat → List Char → Option (Json × List Char)
  | 0, _ => none
  | _, [] => none
  | fuel + 1, c :: t =>
    if c == '{' then
      match jsonSkipWs t with
      | '}' :: r => some (.obj [], r)
      | u => (parseJObjItems fuel [] u).map (fun p => (.obj p.1, p.2))
    else if c == '[' then
      match jsonSkipWs t with
      | ']' :: r => some (.arr [], r)
      | u => (parseJArrItems fuel [] u).map (fun p => (.arr p.1, p.2))
    else if c == '"' then
      (parseJStrBody (t.length + 1) t).map (fun p => (.str p.1, p.2))
    else if c == 't' then
      if (cs "rue").isPrefixOf t then some (.bool true, t.drop 3) else none
    else if c == 'f' then
      if (cs "alse").isPrefixOf t then some (.bool false, t.drop 4) else none
    else if c == 'n' then
      if (cs "ull").isPrefixOf t then some (.null, t.drop 3) else none
    else if c == 'N' then
      if (cs "aN").isPrefixOf t then some (.fnum (cs "NaN"), t.drop 2) else none
    else if c == 'I' then
      if (cs "nfinity").isPrefixOf t then some (.fnum (cs "Infinity"), t.drop 7) else none
    else if c == '-' ∧ (cs "Infinity").isPrefixOf t then
      some (.fnum (cs "-Infinity"), t.drop 8)
    else parseJNum (c :: t)

/-- Members of a JSON object, positioned at a key; duplicate keys are
resolved by dict assignment (last value wins, position kept). -/
def parseJObjItems : Nat → ArgsMap → List Char → Option (ArgsMap × List Char)
  | 0, _, _ => none
  | fuel + 1, acc, s =>
    match s with
    | '"' :: t =>
      match parseJStrBody (t.length + 1) t with
      | none => none
      | some (k, r) =>
        match jsonSkipWs r with
        | ':' :: r2 =>
          match parseJVal fuel (jsonSkipWs r2) with
          | none => none
          | some (v, r3) =>
            let acc2 := dictSet acc k v
            match jsonSkipWs r3 with
            | ',' :: r4 => parseJObjItems fuel acc2 (jsonSkipWs r4)
            | '}' :: r4 => some (acc2, r4)
            | _ => none
        | _ => none
    | _ => none

/-- Elements of a JSON array, positioned at a value. -/
def parseJArrItems : Nat → List Json → List Char → Option (List Json × List Char)
  | 0, _, _ => none
  | fuel + 1, acc, s =>
    match parseJVal fuel s with
    | none => none
    | some (v, r) =>
      match jsonSkipWs r with
      | ',' :: r2 => parseJArrItems fuel (acc ++ [v]) (jsonSkipWs r2)
      | ']' :: r2 => some (acc ++ [v], r2)
      | _ => none

end

/-- `json.loads`: parse one document, demanding that only whitespace
follows it. -/
def jsonLoads (s : List Char) : Option Json :=
  let u := jsonSkipWs s
  match parseJVal (u.length + 1) u with
  | some (v, r) => if (jsonSkipWs r).isEmpty then some v else none
  | none => none

/-! ## Path sandbox (`assistant_cli/tools.py`, lines 69–133)

Filesystem paths are modelled as lists of components of an already
normalised absolute path; `Path.resolve()` of the source maps an absolute
argument to its own components and a relative argument to the root's
components followed by its own.  `_is_under(p, base)` — `relative_to`
succeeding after both sides are resolved — is the components of `base`
being a prefix of the components of `p`. -/

/-- A path argument as handed to the resolvers: Python's `os.path.isabs`
dichotomy. -/
inductive PyPath where
  | absolute (comps : List String)
  | relative (comps : List String)

/-- The configuration surface of `assistant_cli/config.py` that the
resolvers read (`ASSISTANT_ROOT`, `ASSISTANT_DENYLIST`,
`ASSISTANT_READONLY_DIRS`, `ASSISTANT_GLOBAL_READ`,
`ASSISTANT_GLOBAL_WRITE`). -/
structure SandboxCfg where
  root : List String
  denylist : List (List String)
  readonlyDirs : List (List String)
  globalRead : Bool
  globalWrite : Bool

/-- `(ASSISTANT_ROOT / path).resolve() if not isabs(path) else Path(path).resolve()`. -/
def resolveAgainstRoot (root : List String) : PyPath → List String
  | .absolute comps => comps
  | .relative comps => root ++ comps

/-- `_is_under`. -/
def isUnder (p base : List String) : Bool := base.isPrefixOf p

/-- `_resolve_safe_path`. -/
def resolveSafePath (cfg : SandboxCfg) (path : PyPath) : Except String (List String) :=
  let p := resolveAgainstRoot cfg.root path
  if cfg.denylist.any (fun d => isUnder p d) then
    .error "path denied by admin denylist"
  else if cfg.globalWrite || p == cfg.root then .ok p
  else if !(isUnder p cfg.root) then .error "path outside ASSISTANT_ROOT"
  else .ok p

/-- `_resolve_readable_path`. -/
def resolveReadablePath (cfg : SandboxCfg) (path : PyPath)
    (allowOutsideRoot : Bool) : Except String (List String) :=
  let p := resolveAgainstRoot cfg.root path
  if cfg.denylist.any (fun d => isUnder p d) then
    .error "path denied by admin denylist"
  else if isUnder p cfg.root then .ok p
  else if allowOutsideRoot then .ok p
  else if cfg.globalRead then .ok p
  else if cfg.readonlyDirs.any (fun base => isUnder p base) then .ok p
  else .error "path outside allowed read locations"

/-- `_resolve_write_path`. -/
def resolveWritePath (cfg : SandboxCfg) (path : PyPath)
    (allowOutsideRoot : Bool) : Except String (List String) :=
  let p := resolveAgainstRoot cfg.root path
  if cfg.denylist.any (fun d => isUnder p d) then
    .error "path denied by admin denylist"
  else if isUnder p cfg.root then .ok p
  else if cfg.globalWrite || allowOutsideRoot then .ok p
  else .error "write outside ASSISTANT_ROOT (confirmation required)"

/-- `_confirm_required_response`. -/
def confirmRequiredResponse (action path : List Char) (args : ArgsMap)
    (reason : List Char) : Json :=
  let sanitized := args.filter (fun kv => !(pyStarts (cs "__") kv.1))
  Json.obj
    [ (cs "ok", .bool false)
    , (cs "confirm_required", .bool true)
    , (cs "action", .str action)
    , (cs "path", .str path)
    , (cs "args", .obj sanitized)
    , (cs "reason", .str reason) ]

/-! ## Tool registry and dispatcher (`assistant_cli/tools.py`,
`registry()` and `call_tool`)

Each registry entry is kept as its name together with the keys of its
declared parameter schema, in source order; tool bodies are external
executors, supplied as an oracle wherever `call_tool` is run. -/

def registryParams : List (List Char × List (List Char)) :=
  [ (cs "help.tools", [])
  , (cs "fs.tempfile", [cs "prefix", cs "suffix"])
  , (cs "fs.read", [cs "path", cs "max_bytes", cs "encoding"])
  , (cs "fs.write", [cs "path", cs "content", cs "create_dirs"])
  , (cs "fs.append", [cs "path", cs "content"])
  , (cs "fs.list", [cs "directory", cs "glob"])
  , (cs "fs.mkdir", [cs "path"])
  , (cs "fs.copy", [cs "src", cs "dest"])
  , (cs "fs.glob", [cs "path", cs "pattern"])
  , (cs "fs.search", [cs "query", cs "directory"])
  , (cs "edit.replace", [cs "path", cs "find", cs "replace", cs "count"])
  , (cs "web.get", [cs "url"])
  , (cs "crypto.price", [cs "asset", cs "vs_currencies"])
  , (cs "fx.rate", [cs "base", cs "target", cs "amount"])
  , (cs "web.get_many", [cs "urls"])
  , (cs "web.search", [cs "query", cs "limit"])
  , (cs "web.open", [cs "urls"])
  , (cs "shell.exec", [cs "cmd"])
  , (cs "git.status", [cs "path"])
  , (cs "git.diff", [cs "path", cs "staged", cs "files"])
  , (cs "git.commit", [cs "path", cs "message", cs "add_all", cs "files"])
  , (cs "git.branch", [cs "path", cs "action", cs "name"])
  , (cs "git.restore", [cs "path", cs "files", cs "staged"])
  , (cs "fmt.black", [cs "paths", cs "check"])
  , (cs "lint.ruff", [cs "paths", cs "fix"])
  , (cs "sys.time", [cs "tz", cs "location", cs "verify_online"])
  , (cs "sys.time.bulk", [cs "region", cs "countries", cs "verify_online"])
  , (cs "sys.time.diff", [cs "tz1", cs "tz2", cs "loc1", cs "loc2", cs "verify_online"])
  , (cs "geo.countries", [cs "region", cs "verify_online"])
  , (cs "geo.continents", [cs "verify_online"])
  , (cs "spreadsheet.read_sheet", [cs "path"])
  , (cs "spreadsheet.query", [cs "path", cs "query"]) ]

def registryNames : List (List Char) := registryParams.map (·.1)

/-- Keys of the declared parameter schema of a registered tool. -/
def declaredParams (n : List Char) : List (List Char) :=
  match registryParams.find? (fun e => e.1 == n) with
  | some e => e.2
  | none => []

/-- The tool names the alias table of `_normalize_tool_alias` rewrites. -/
def aliasSources : List (List Char) :=
  [ cs "fs.writeFile", cs "fs-extra.writeFile", cs "mkdir", cs "fs.mkdirp"
  , cs "cp", cs "filecopy", cs "edit.ini", cs "web.openMany"
  , cs "git.checkout", cs "git.switchBranch", cs "git.createBranch"
  , cs "git.newBranch", cs "format.black", cs "black", cs "lint.ruff", cs "ruff" ]

/-- The rewrite chain of `_normalize_tool_alias` once the copied dict `a2`
is available. -/
def aliasRewrite (n2 : List Char) (a2 : ArgsMap) : List Char × ArgsMap :=
  if n2 == cs "fs.writeFile" || n2 == cs "fs-extra.writeFile" then
    ( cs "fs.write"
    , if dictHas a2 (cs "data") ∧ !(dictHas a2 (cs "content")) then
        dictSet (dictDrop a2 (cs "data")) (cs "content")
          ((dictGet a2 (cs "data")).getD .null)
      else a2 )
  else if n2 == cs "mkdir" || n2 == cs "fs.mkdirp" then (cs "fs.mkdir", a2)
  else if n2 == cs "cp" || n2 == cs "filecopy" then (cs "fs.copy", a2)
  else if n2 == cs "edit.ini" then
    ( cs "edit.replace"
    , match dictGet a2 (cs "content") with
      | some (.arr (x0 :: x1 :: x2 :: _)) =>
        if pyLower (pyStrJson x0) == cs "replace" then
          [ (cs "path", (dictGet a2 (cs "path")).getD .null)
          , (cs "find", .str (pyStripChars (cs "'\"") (pyStrJson x1)))
          , (cs "replace", .str (pyStripChars (cs "'\"") (pyStrJson x2))) ]
        else a2
      | _ => a2 )
  else if n2 == cs "web.openMany" then (cs "web.open", a2)
  else if n2 == cs "git.checkout" || n2 == cs "git.switchBranch" then
    (cs "git.branch", dictSet a2 (cs "action")
      ((dictGet a2 (cs "action")).getD (.str (cs "switch"))))
  else if n2 == cs "git.createBranch" || n2 == cs "git.newBranch" then
    (cs "git.branch", dictSet a2 (cs "action")
      ((dictGet a2 (cs "action")).getD (.str (cs "create"))))
  else if n2 == cs "format.black" || n2 == cs "black" then (cs "fmt.black", a2)
  else if n2 == cs "lint.ruff" || n2 == cs "ruff" then (cs "lint.ruff", a2)
  else (n2, a2)

/-- `dict(a or {})`: the copy `_normalize_tool_alias` takes of the raw
args.  A truthy non-dict raises `TypeError` (coercion of a list of pairs
is not modelled; the agent never produces one). -/
def pyDictCopy (a : Json) : Except (List Char) ArgsMap :=
  match pyOrElse a (Json.obj []) with
  | .obj kvs => .ok kvs
  | _ => .error (cs "TypeError: args is not a dict")

/-- `{"ok": False, "error": f"unknown tool: \x7bname\x7d"}`. -/
def unknownToolResult (name : Json) : Json :=
  Json.obj [ (cs "ok", .bool false)
           , (cs "error", .str (cs "unknown tool: " ++ pyStrJson name)) ]

/-- `_normalize_tool_alias`: non-string names normalise to `""` (their raw
args are never used, the dispatcher fails the registry lookup first). -/
def normalizeToolAlias (n : Json) (a : Json) : Except (List Char) (List Char × ArgsMap) :=
  match n with
  | .str s => (pyDictCopy a).map (fun a2 => aliasRewrite s a2)
  | _ => .ok ([], [])

/-- The name/args pair `call_tool` hands to the registered executor:
`some` of the pair after alias normalisation when the name is registered,
`none` when the lookup fails, an exception when the args copy raises. -/
def callToolDispatch (name args : Json) : Except (List Char) (Option (List Char × ArgsMap)) :=
  match normalizeToolAlias name args with
  | .error e => .error e
  | .ok (n2, a2) =>
    .ok (if registryNames.contains n2 then some (n2, a2) else none)

/-- `call_tool`, with the registered tool bodies as the executor oracle
`exec` (indexed by how many dispatches happened before, so successive
invocations may behave differently, as real tools do). -/
def callTool (exec : Nat → List Char → ArgsMap → Except (List Char) Json)
    (idx : Nat) (name args : Json) : Except (List Char) Json :=
  match callToolDispatch name args with
  | .error e => .error e
  | .ok (some (n2, a2)) => exec idx n2 a2
  | .ok none => .ok (unknownToolResult name)

/-! ## A small backtracking regex engine

`re.search` / `re.sub` / `re.findall` as used by the heuristic rule table
of `Agent._setup_heuristic_rules`.  Only the constructs those patterns use
are implemented; `\w` and the character classes are modelled on the
Basic-Latin and Latin-1 ranges the Portuguese rule table draws from.
Matching is continuation-passing with gas; every call site supplies gas
that is ample for the inputs evaluated in this development. -/

/-- Python `\w` on the ranges exercised here. -/
def pyIsWord (c : Char) : Bool :=
  c.isAlphanum || c == '_' || ('À' ≤ c ∧ c ≤ 'ÿ' ∧ c ≠ '×' ∧ c ≠ '÷')

inductive ClsItem where
  | one (c : Char)
  | range (lo hi : Char)
  | digit
  | space
  | word

def clsItemMatch (a : Char) : ClsItem → Bool
  | .one c => a == c
  | .range lo hi => lo ≤ a ∧ a ≤ hi
  | .digit => isDigitCh a
  | .space => pyIsSpace a
  | .word => pyIsWord a

inductive Rx where
  | eps
  | chr (c : Char)
  | cls (neg : Bool) (items : List ClsItem)
  | anyCh
  | seq (a b : Rx)
  | alt (a b : Rx)
  | star (laz : Bool) (a : Rx)
  | plus (laz : Bool) (a : Rx)
  | opt (laz : Bool) (a : Rx)
  | grp (idx : Nat) (a : Rx)
  | wordB
  | bos
  | eos

/-- Captured groups, by group number; a later capture of the same group
replaces the earlier one, as in `re`. -/
abbrev RxGroups := List (Nat × List Char)

def groupGet (g : RxGroups) (i : Nat) : Option (List Char) :=
  match g with
  | [] => none
  | (j, v) :: t => if j == i then some v else groupGet t i

def groupSet (g : RxGroups) (i : Nat) (v : List Char) : RxGroups :=
  match g with
  | [] => [(i, v)]
  | (j, v') :: t => if j == i then (j, v) :: t else (j, v') :: groupSet t i v

def isWordBoundary (bef aft : List Char) : Bool :=
  (match bef with | c :: _ => pyIsWord c | [] => false)
    != (match aft with | c :: _ => pyIsWord c | [] => false)

abbrev RxCont := List Char → List Char → RxGroups → Option (List Char × List Char × RxGroups)

/-- The matcher.  `bef` is the reversed text to the left of the cursor
(so `\b`, `^` can look back), `aft` the text to the right.  Alternatives,
greedy and lazy repetition follow `re` backtracking order.  The repetition
cases demand progress before iterating, which is `re`'s empty-match
protection (none of the embedded patterns can match empty there). -/
def rxMatch (fuel : Nat) (r : Rx) (bef aft : List Char) (g : RxGroups)
    (k : RxCont) : Option (List Char × List Char × RxGroups) :=
  match fuel with
  | 0 => none
  | fuel + 1 =>
    match r with
    | .eps => k bef aft g
    | .chr c =>
      match aft with
      | a :: rest => if a == c then k (a :: bef) rest g else none
      | [] => none
    | .cls neg items =>
      match aft with
      | a :: rest => if (items.any (clsItemMatch a)) != neg then k (a :: bef) rest g else none
      | [] => none
    | .anyCh =>
      match aft with
      | a :: rest => k (a :: bef) rest g
      | [] => none
    | .seq r1 r2 =>
      rxMatch fuel r1 bef aft g (fun b2 a2 g2 => rxMatch fuel r2 b2 a2 g2 k)
    | .alt r1 r2 =>
      match rxMatch fuel r1 bef aft g k with
      | some res => some res
      | none => rxMatch fuel r2 bef aft g k
    | .star laz r1 =>
      if laz then
        match k bef aft g with
        | some res => some res
        | none =>
          rxMatch fuel r1 bef aft g (fun b2 a2 g2 =>
            if a2.length < aft.length then rxMatch fuel (.star laz r1) b2 a2 g2 k else none)
      else
        match rxMatch fuel r1 bef aft g (fun b2 a2 g2 =>
            if a2.length < aft.length then rxMatch fuel (.star laz r1) b2 a2 g2 k else none) with
        | some res => some res
        | none => k bef aft g
    | .plus laz r1 =>
      rxMatch fuel r1 bef aft g (fun b2 a2 g2 => rxMatch fuel (.star laz r1) b2 a2 g2 k)
    | .opt laz r1 =>
      if laz then
        match k bef aft g with
        | some res => some res
        | none => rxMatch fuel r1 bef aft g k
      else
        match rxMatch fuel r1 bef aft g k with
        | some res => some res
        | none => k bef aft g
    | .grp i r1 =>
      rxMatch fuel r1 bef aft g (fun b2 a2 g2 =>
        k b2 a2 (groupSet g2 i ((b2.take (b2.length - bef.length)).reverse)))
    | .wordB => if isWordBoundary bef aft then k bef aft g else none
    | .bos => if bef.isEmpty then k bef aft g else none
    | .eos => if aft.isEmpty || aft == ['\n'] then k bef aft g else none

/-- Gas handed to the matcher at every call site of this development. -/
def rxFuel : Nat := 1000000

/-- `re.Match` as the handlers consume it: the whole match and the
captured groups. -/
structure PyMatch where
  g0 : List Char
  groups : RxGroups

/-- `m.group(i)`; `0` is the whole match, unmatched groups give `None`. -/
def mGroup (m : PyMatch) (i : Nat) : Option (List Char) :=
  if i == 0 then some m.g0 else groupGet m.groups i

def rxAccept : RxCont := fun b a g => some (b, a, g)

/-- `re.search`: leftmost match, scanning start positions left to right. -/
def rxSearchGo (r : Rx) (bef aft : List Char) : Option PyMatch :=
  match rxMatch rxFuel r bef aft [] rxAccept with
  | some (b2, _, g) => some ⟨(b2.take (b2.length - bef.length)).reverse, g⟩
  | none =>
    match aft with
    | [] => none
    | c :: rest => rxSearchGo r (c :: bef) rest

def rxSearch (r : Rx) (s : List Char) : Option PyMatch := rxSearchGo r [] s

/-- `re.sub` with a plain replacement string. -/
def rxSubGo (fuel : Nat) (r : Rx) (repl : List Char) (bef aft : List Char) : List Char :=
  match fuel with
  | 0 => aft
  | fuel + 1 =>
    match rxMatch rxFuel r bef aft [] rxAccept with
    | some (b2, a2, _) =>
      if a2.length < aft.length then repl ++ rxSubGo fuel r repl b2 a2
      else
        match aft with
        | [] => repl
        | c :: rest => repl ++ [c] ++ rxSubGo fuel r repl (c :: bef) rest
    | none =>
      match aft with
      | [] => []
      | c :: rest => c :: rxSubGo fuel r repl (c :: bef) rest

def rxSub (r : Rx) (repl s : List Char) : List Char :=
  rxSubGo (s.length + 1) r repl [] s

/-- `re.findall` for a pattern with one capturing group (each hit yields
group 1; a non-participating group yields the empty string). -/
def rxFindAllGo (fuel : Nat) (r : Rx) (bef aft : List Char) : List (List Char) :=
  match fuel with
  | 0 => []
  | fuel + 1 =>
    match rxMatch rxFuel r bef aft [] rxAccept with
    | some (b2, a2, g) =>
      let v := (groupGet g 1).getD []
      if a2.length < aft.length then v :: rxFindAllGo fuel r b2 a2
      else
        match aft with
        | [] => [v]
        | c :: rest => v :: rxFindAllGo fuel r (c :: bef) rest
    | none =>
      match aft with
      | [] => []
      | c :: rest => rxFindAllGo fuel r (c :: bef) rest

def rxFindAll (r : Rx) (s : List Char) : List (List Char) :=
  rxFindAllGo (s.length + 1) r [] s

/-! Pattern-building helpers. -/

def rxStr (s : String) : Rx :=
  match s.toList with
  | [] => .eps
  | c :: t => t.foldl (fun acc d => .seq acc (.chr d)) (.chr c)

def rxAlts (l : List Rx) : Rx :=
  match l with
  | [] => .eps
  | [r] => r
  | r :: t => .alt r (rxAlts t)

def rxSeqs (l : List Rx) : Rx :=
  match l with
  | [] => .eps
  | [r] => r
  | r :: t => .seq r (rxSeqs t)

/-- `[...]` over plain characters. -/
def clsOf (s : String) : Rx := .cls false (s.toList.map .one)

/-- `[^...]` over plain characters. -/
def clsNot (s : String) : Rx := .cls true (s.toList.map .one)

/-- `\s` as an atom. -/
def spCh : Rx := .cls false [.space]

/-- `\w` as an atom. -/
def wdCh : Rx := .cls false [.word]

/-- `\s+`. -/
def sp1 : Rx := .plus false spCh

/-! ## `extract_tool_call` (`assistant_cli/agent.py`, lines 27–36)

The source runs
`re.search(r"<tool_call>\s*(\\\x7b[\s\S]*?\\\x7d)\s*</tool_call>", text)`
and `json.loads` on group 1.  That particular pattern is deterministic
once `re`'s leftmost/lazy strategy is spelled out, and is embedded here as
a direct scanner: at the leftmost occurrence of `<tool_call>` whose
following run of whitespace ends at `\x7b`, the capture closes at the
first later `\x7d` that is followed (after whitespace) by `</tool_call>`;
if no such close exists the scan resumes one character further right.  A
capture whose JSON fails to load yields `None` — the scan is not
resumed. -/

def openTagCs : List Char := cs "<tool_call>"

def closeTagCs : List Char := cs "</tool_call>"

/-- The lazy close search: first `\x7d` after which (modulo whitespace)
the closing tag follows; `acc` holds the reversed capture so far. -/
def findCloseAux (acc : List Char) : List Char → Option (List Char)
  | [] => none
  | c :: rest =>
    if c == '}' ∧ startsList closeTagCs (rest.dropWhile pyIsSpace) then
      some ((c :: acc).reverse)
    else findCloseAux (c :: acc) rest

/-- The whole pattern anchored at the current position. -/
def tryToolCallAt (s : List Char) : Option (List Char) :=
  if startsList openTagCs s then
    match (s.drop 11).dropWhile pyIsSpace with
    | '{' :: u => findCloseAux ['{'] u
    | _ => none
  else none

/-- `re.search` of the tool-call pattern: group 1 of the leftmost match. -/
def scanToolCall : List Char → Option (List Char)
  | [] => none
  | c :: rest =>
    match tryToolCallAt (c :: rest) with
    | some cap => some cap
    | none => scanToolCall rest

/-- `extract_tool_call`. -/
def extractToolCall (text : List Char) : Option Json :=
  (scanToolCall text).bind jsonLoads

/-! ## `Agent._strip_internal` -/

def toolCallBlockRx : Rx :=
  rxSeqs [rxStr "<tool_call>", .star true .anyCh, rxStr "</tool_call>"]

def toolResultBlockRx : Rx :=
  rxSeqs [rxStr "<tool_result>", .star true .anyCh, rxStr "</tool_result>"]

/-- `Agent._strip_internal`: drop tool-call and tool-result blocks, then
strip. -/
def stripInternal (text : List Char) : List Char :=
  pyStrip (rxSub toolResultBlockRx [] (rxSub toolCallBlockRx [] text))

/-! ## The heuristic rule patterns (`Agent._setup_heuristic_rules`) -/

/-- `diferen\w+\s+de\s+(?:hor(a|ario|ário)|fuso)\s+entre\s+([^,.;!?]+?)\s+e\s+([^,.;!?]+)` -/
def ruleTimeDiffRx : Rx :=
  rxSeqs
    [ rxStr "diferen", .plus false wdCh, sp1, rxStr "de", sp1
    , .alt (rxSeqs [rxStr "hor", .grp 1 (rxAlts [rxStr "a", rxStr "ario", rxStr "ário"])])
        (rxStr "fuso")
    , sp1, rxStr "entre", sp1
    , .grp 2 (.plus true (clsNot ",.;!?")), sp1, rxStr "e", sp1
    , .grp 3 (.plus false (clsNot ",.;!?")) ]

/-- `\b(data|hora|horas|horario|horário|horários)\b[\s\S]*?(?:\sem|\sno|\sna|\sde|\sdo|\sda)\s+([^\n,.;!?]+?)(?:\?|$)` -/
def ruleTimeLocRx : Rx :=
  rxSeqs
    [ .wordB
    , .grp 1 (rxAlts [rxStr "data", rxStr "hora", rxStr "horas", rxStr "horario",
        rxStr "horário", rxStr "horários"])
    , .wordB
    , .star true .anyCh
    , rxAlts [ .seq spCh (rxStr "em"), .seq spCh (rxStr "no"), .seq spCh (rxStr "na")
             , .seq spCh (rxStr "de"), .seq spCh (rxStr "do"), .seq spCh (rxStr "da") ]
    , sp1
    , .grp 2 (.plus true (clsNot "\n,.;!?"))
    , .alt (.chr '?') .eos ]

/-- The two-letter continuation `(?:do|de)` used by the fx trigger. -/
def rxDoDe : Rx := .alt (rxStr "do") (rxStr "de")

/-- `(?:quanto\s+custa|qual\s+é\s+o\s+valor|valor\s+(?:do|de)|cotação\s+(?:do|de)|cotacao\s+(?:do|de)|preço\s+(?:do|de)|preco\s+(?:do|de))[\s\S]*?(d[oó]lar|usd|real|brl|euro|eur|libra|gbp|iene|yen|jpy)` -/
def ruleFxRx : Rx :=
  rxSeqs
    [ rxAlts
        [ rxSeqs [rxStr "quanto", sp1, rxStr "custa"]
        , rxSeqs [rxStr "qual", sp1, rxStr "é", sp1, rxStr "o", sp1, rxStr "valor"]
        , rxSeqs [rxStr "valor", sp1, rxDoDe]
        , rxSeqs [rxStr "cotação", sp1, rxDoDe]
        , rxSeqs [rxStr "cotacao", sp1, rxDoDe]
        , rxSeqs [rxStr "preço", sp1, rxDoDe]
        , rxSeqs [rxStr "preco", sp1, rxDoDe] ]
    , .star true .anyCh
    , .grp 1 (rxAlts
        [ rxSeqs [.chr 'd', clsOf "oó", rxStr "lar"]
        , rxStr "usd", rxStr "real", rxStr "brl", rxStr "euro", rxStr "eur"
        , rxStr "libra", rxStr "gbp", rxStr "iene", rxStr "yen", rxStr "jpy" ]) ]

/-- `(?:qual\s+é\s+o\s+valor|valor|preço|cotação)\s+(?:do|da|de)\s+([^\n,.;!?]+?)(?:\?|$)` -/
def rulePriceRx : Rx :=
  rxSeqs
    [ rxAlts
        [ rxSeqs [rxStr "qual", sp1, rxStr "é", sp1, rxStr "o", sp1, rxStr "valor"]
        , rxStr "valor", rxStr "preço", rxStr "cotação" ]
    , sp1, rxAlts [rxStr "do", rxStr "da", rxStr "de"], sp1
    , .grp 1 (.plus true (clsNot "\n,.;!?"))
    , .alt (.chr '?') .eos ]

/-- `(verifi\w+|confir\w+|corrig\w+|atualiz\w+|errad\w+|diferent\w+|não\s+está\s+certo|nao\s+esta\s+certo)` -/
def ruleCorrectionRx : Rx :=
  .grp 1 (rxAlts
    [ .seq (rxStr "verifi") (.plus false wdCh)
    , .seq (rxStr "confir") (.plus false wdCh)
    , .seq (rxStr "corrig") (.plus false wdCh)
    , .seq (rxStr "atualiz") (.plus false wdCh)
    , .seq (rxStr "errad") (.plus false wdCh)
    , .seq (rxStr "diferent") (.plus false wdCh)
    , rxSeqs [rxStr "não", sp1, rxStr "está", sp1, rxStr "certo"]
    , rxSeqs [rxStr "nao", sp1, rxStr "esta", sp1, rxStr "certo"] ])

/-- `(?:fs\.list|listar\s+arquivos|lista\s+arquivos|list\s+arquivos)\s+(?:em|de|do|da)\s+(?P<path>/[^\s]+)`;
the named group `path` is group 1. -/
def ruleFsListRx : Rx :=
  rxSeqs
    [ rxAlts
        [ rxStr "fs.list"
        , rxSeqs [rxStr "listar", sp1, rxStr "arquivos"]
        , rxSeqs [rxStr "lista", sp1, rxStr "arquivos"]
        , rxSeqs [rxStr "list", sp1, rxStr "arquivos"] ]
    , sp1, rxAlts [rxStr "em", rxStr "de", rxStr "do", rxStr "da"], sp1
    , .grp 1 (.seq (.chr '/') (.plus false (.cls true [.space]))) ]

/-- `(?:ler|leia|abrir)\s+(?P<path>/[^\s]+)`; the named group `path` is
group 1. -/
def ruleFsReadRx : Rx :=
  rxSeqs
    [ rxAlts [rxStr "ler", rxStr "leia", rxStr "abrir"]
    , sp1, .grp 1 (.seq (.chr '/') (.plus false (.cls true [.space]))) ]

/-- `(?:https?://)?([a-z0-9.-]+\.[a-z]\x7b2,\x7d)(?:/[^\s]*)?`
(the domain extractor of `prepare_search_query`). -/
def urlDomainRx : Rx :=
  rxSeqs
    [ .opt false (rxSeqs [rxStr "http", .opt false (.chr 's'), rxStr "://"])
    , .grp 1 (rxSeqs
        [ .plus false (.cls false [.range 'a' 'z', .range '0' '9', .one '.', .one '-'])
        , .chr '.'
        , .cls false [.range 'a' 'z'], .cls false [.range 'a' 'z']
        , .star false (.cls false [.range 'a' 'z']) ])
    , .opt false (.seq (.chr '/') (.star false (.cls true [.space]))) ]

/-- `(\d+[\d.,]*)` (the amount extractor of `handle_fx_convert`). -/
def amountRx : Rx :=
  .grp 1 (.seq (.plus false (.cls false [.digit]))
    (.star false (.cls false [.digit, .one '.', .one ','])))

/-- `^(sobre|a respeito de|de|do|da|o|a)\s+` (the trigger cleanup of
`handle_web_search`). -/
def webSearchLeadRx : Rx :=
  rxSeqs
    [ .bos
    , .grp 1 (rxAlts [rxStr "sobre", rxStr "a respeito de", rxStr "de", rxStr "do",
        rxStr "da", rxStr "o", rxStr "a"])
    , sp1 ]

/-! ## Conversation state and oracles (`assistant_cli/agent.py`)

The model backend, the registered tool bodies, the interactive `input()`
prompt and the filesystem are collaborators outside this core; each is an
oracle field of `LoopCfg`, indexed where the source can observe ordering.
`AgentSt` carries the conversation plus the session fields of `Agent`
(`_approved_paths`, the `_last_*` heuristic memory) and, as specification
instrumentation, the counts and traces of inferences, dispatches and
confirmation prompts. -/

inductive Role where
  | system
  | user
  | assistant
deriving DecidableEq

structure Turn where
  role : Role
  content : List Char
deriving DecidableEq

structure AgentSt where
  messages : List Turn
  lastAsset : Json
  lastPriceVs : List (List Char)
  lastSearchQuery : Json
  lastSearchBaseQuery : Json
  lastSearchSiteFilters : List (List Char)
  lastSearchUrls : List (List Char)
  lastSearchLimit : Int
  lastFxRequest : Json
  approved : List (List String)
  expecting : Bool
  toolSuccess : Bool
  retries : Nat
  nInfer : Nat
  nDispatch : Nat
  dispatches : List (Json × Json)
  nPrompt : Nat

structure LoopCfg where
  model : Nat → List Char
  exec : Nat → List Char → ArgsMap → Except (List Char) Json
  userIn : Nat → List Char
  isDir : List String → Bool
  resolve : List Char → Option (List String)

def addUserT (st : AgentSt) (content : List Char) : AgentSt :=
  { st with messages := st.messages ++ [⟨.user, content⟩] }

def addAssistantT (st : AgentSt) (content : List Char) : AgentSt :=
  { st with messages := st.messages ++ [⟨.assistant, content⟩] }

/-- `format_tool_result`. -/
def formatToolResult (obj : Json) : List Char :=
  cs "<tool_result>" ++ jsonDump obj ++ cs "</tool_result>"

/-- `call_tool` as invoked from the agent: the dispatch counter moves and
the invocation is recorded. -/
def callToolTraced (cfg : LoopCfg) (st : AgentSt) (name args : Json) :
    AgentSt × Except (List Char) Json :=
  ( { st with nDispatch := st.nDispatch + 1, dispatches := st.dispatches ++ [(name, args)] }
  , callTool cfg.exec st.nDispatch name args )

/-- `str.split()`: split on whitespace runs, dropping empties. -/
def pySplitWs (s : List Char) : List (List Char) :=
  ((s.splitOnP (fun c => pyIsSpace c)).map id).filter (fun w => !w.isEmpty)

def joinWith (sep : List Char) (xs : List (List Char)) : List Char :=
  match xs with
  | [] => []
  | [x] => x
  | x :: t => x ++ sep ++ joinWith sep t

/-- NFKD then `encode("ascii", "ignore")`: accented Latin letters fall to
their base letter, other non-ASCII characters disappear. -/
def deaccentChar (c : Char) : List Char :=
  if c.toNat < 128 then [c]
  else if (cs "áàâãäå").contains c then ['a']
  else if (cs "ÁÀÂÃÄÅ").contains c then ['A']
  else if (cs "éèêë").contains c then ['e']
  else if (cs "ÉÈÊË").contains c then ['E']
  else if (cs "íìîï").contains c then ['i']
  else if (cs "ÍÌÎÏ").contains c then ['I']
  else if (cs "óòôõö").contains c then ['o']
  else if (cs "ÓÒÔÕÖ").contains c then ['O']
  else if (cs "úùûü").contains c then ['u']
  else if (cs "ÚÙÛÜ").contains c then ['U']
  else if c == 'ç' then ['c']
  else if c == 'Ç' then ['C']
  else if c == 'ñ' then ['n']
  else if c == 'Ñ' then ['N']
  else if c == 'ý' || c == 'ÿ' then ['y']
  else []

def deaccent (s : List Char) : List Char := s.flatMap deaccentChar

/-- The `currency_aliases` table of `_setup_heuristic_rules`. -/
def currencyAliases : List (List Char × List Char) :=
  [ (cs "usd", cs "USD"), (cs "dolar", cs "USD"), (cs "dolares", cs "USD")
  , (cs "dolaramericano", cs "USD"), (cs "dolaresamericanos", cs "USD")
  , (cs "dollar", cs "USD"), (cs "dollars", cs "USD")
  , (cs "real", cs "BRL"), (cs "reais", cs "BRL"), (cs "realbrasileiro", cs "BRL")
  , (cs "realbrasil", cs "BRL"), (cs "brl", cs "BRL")
  , (cs "euro", cs "EUR"), (cs "eur", cs "EUR")
  , (cs "libra", cs "GBP"), (cs "libraesterlina", cs "GBP"), (cs "gbp", cs "GBP")
  , (cs "iene", cs "JPY"), (cs "yen", cs "JPY"), (cs "jpy", cs "JPY")
  , (cs "pesoargentino", cs "ARS"), (cs "ars", cs "ARS")
  , (cs "cad", cs "CAD"), (cs "dolarcanadense", cs "CAD")
  , (cs "aud", cs "AUD"), (cs "dolaraustraliano", cs "AUD") ]

/-- `normalize_currency`. -/
def normalizeCurrency (tok : List Char) : Option (List Char) :=
  if tok.isEmpty then none
  else
    let tokNorm := ((pyLower (deaccent tok)).filter Char.isAlphanum)
    match currencyAliases.find? (fun e => e.1 == tokNorm) with
    | some e => some e.2
    | none => none

/-- `Agent._extract_regions_from_prompt`. -/
def regionTable : List (List Char × List (List Char)) :=
  [ (cs "América do Norte", [cs "américa do norte", cs "america do norte", cs "north america"])
  , (cs "América Central", [cs "américa central", cs "america central", cs "central america"])
  , (cs "América do Sul", [cs "américa do sul", cs "america do sul", cs "south america"])
  , (cs "Caribe", [cs "caribe", cs "caribbean"])
  , (cs "Europa", [cs "europa", cs "europe"])
  , (cs "África", [cs "áfrica", cs "africa"])
  , (cs "Ásia", [cs "ásia", cs "asia"])
  , (cs "Oceania", [cs "oceania"])
  , (cs "Antártica", [cs "antártica", cs "antartica", cs "antarctica"]) ]

def extractRegions (p : List Char) : List (List Char) :=
  regionTable.foldl
    (fun acc e =>
      if e.2.any (fun al => isSubstr al p) ∧ !(acc.contains e.1) then acc ++ [e.1]
      else acc)
    []

/-! ## Heuristic rule handlers (`Agent._setup_heuristic_rules`)

A handler takes the agent state (the closure over `self`), the lowered
stripped prompt and the optional regex match, and returns the updated
state together with its result: `None`, an args dict, or a list of
tool/args items. -/

inductive HRet where
  | hnone
  | hargs (a : ArgsMap)
  | hlist (items : List (Option (List Char) × ArgsMap))

/-- `m.group(i)` of an optional match, for handlers whose rule pattern
guarantees the group participates. -/
def mGroupD (m : Option PyMatch) (i : Nat) : List Char :=
  (m.bind (fun mm => mGroup mm i)).getD []

/-- `prepare_search_query` (nested in `_setup_heuristic_rules`): builds
the final query, updates the `_last_search_*` session fields, returns the
`web.search` args. -/
def prepareSearchQuery (st : AgentSt) (originalPrompt coreQuery : List Char)
    (limit : Int) (siteFilters : List (List Char)) : AgentSt × ArgsMap :=
  let filters := (rxFindAll urlDomainRx originalPrompt).foldl
    (fun acc mt =>
      let domain := pyStrip (pyLower mt)
      let domain := if pyStarts (cs "www.") domain then domain.drop 4 else domain
      if acc.contains domain then acc else acc ++ [domain])
    siteFilters
  let baseQuery :=
    let src := if !coreQuery.isEmpty then coreQuery else originalPrompt
    joinWith (cs " ") (pySplitWs src)
  let baseQuery :=
    if baseQuery.isEmpty then
      (if !coreQuery.isEmpty then coreQuery else originalPrompt)
    else baseQuery
  let filtersClause :=
    if !filters.isEmpty then
      cs " " ++ joinWith (cs " ") (filters.map (fun d => cs "site:" ++ d))
    else []
  let finalQuery :=
    let fq := pyStrip (baseQuery ++ filtersClause)
    if fq.isEmpty then baseQuery else fq
  ( { st with
        lastSearchSiteFilters := filters
        lastSearchBaseQuery := if baseQuery.isEmpty then .null else .str baseQuery
        lastSearchQuery := if finalQuery.isEmpty then .null else .str finalQuery
        lastSearchUrls := []
        lastSearchLimit := limit }
  , [(cs "query", .str finalQuery), (cs "limit", .num limit)] )

def verifyWords : List (List Char) :=
  [cs "verificar", cs "conferir", cs "checar", cs "online"]

/-- `handle_time_diff`. -/
def handleTimeDiff (st : AgentSt) (_p : List Char) (m : Option PyMatch) : AgentSt × HRet :=
  (st, .hargs [ (cs "loc1", .str (pyStrip (mGroupD m 2)))
              , (cs "loc2", .str (pyStrip (mGroupD m 3))) ])

/-- `handle_time_loc`. -/
def handleTimeLoc (st : AgentSt) (p : List Char) (m : Option PyMatch) : AgentSt × HRet :=
  let base : ArgsMap :=
    [(cs "location", .str (mGroupD m 2)), (cs "verify_online", .bool false)]
  let a :=
    if verifyWords.any (fun w => isSubstr w p) then
      dictSet base (cs "verify_online") (.bool true)
    else base
  (st, .hargs a)

/-- `handle_time_bulk`. -/
def handleTimeBulk (st : AgentSt) (p : List Char) (_m : Option PyMatch) : AgentSt × HRet :=
  let regions := extractRegions p
  if regions.isEmpty then (st, .hnone)
  else
    let base : ArgsMap := [(cs "region", .arr (regions.map .str))]
    let a :=
      if verifyWords.any (fun w => isSubstr w p) then
        dictSet base (cs "verify_online") (.bool true)
      else base
    (st, .hargs a)

/-- `handle_geo_countries`. -/
def handleGeoCountries (st : AgentSt) (p : List Char) (_m : Option PyMatch) : AgentSt × HRet :=
  let regions := extractRegions p
  if regions.isEmpty then (st, .hnone)
  else
    (st, .hargs [ (cs "region", .arr (regions.map .str))
                , (cs "verify_online", .bool (verifyWords.any (fun w => isSubstr w p))) ])

/-- `handle_web_search`. -/
def handleWebSearch (st : AgentSt) (p : List Char) (_m : Option PyMatch) : AgentSt × HRet :=
  let q := p
  let mentions := [cs "lori ", cs "lori, ", cs "hey lori ", cs "ei lori ", cs "ola lori "]
  let q := match mentions.find? (fun pre => pyStarts pre q) with
    | some pre => q.drop pre.length
    | none => q
  -- `sorted(triggers, key=len, reverse=True)` of the trigger list, spelled
  -- out (Python's sort is stable, ties keep declaration order).
  let triggers :=
    [ cs "pesquisar na internet", cs "pesquisa na internet", cs "pesquise na internet"
    , cs "busca na internet", cs "pesquisar", cs "pesquise", cs "buscar", cs "busque" ]
  let q := match triggers.find? (fun t => pyStarts (t ++ cs " ") q) with
    | some t => q.drop (t.length + 1)
    | none => q
  let q := pyStrip (rxSub webSearchLeadRx [] q)
  let (st2, a) := prepareSearchQuery st p (joinWith (cs " ") (pySplitWs q)) 3 []
  (st2, .hargs a)

/-- `handle_price_search`. -/
def handlePriceSearch (st : AgentSt) (p : List Char) (m : Option PyMatch) : AgentSt × HRet :=
  let asset := pyStrip (mGroupD m 1)
  let query := cs "preço atual " ++ asset
  let st := { st with lastAsset := .str asset, lastPriceVs := [cs "brl", cs "usd"] }
  let (st2, searchArgs) := prepareSearchQuery st p query 3 []
  ( st2
  , .hlist
      [ ( some (cs "crypto.price")
        , [ (cs "asset", .str asset)
          , (cs "vs_currencies", .arr [.str (cs "brl"), .str (cs "usd")]) ] )
      , (some (cs "web.search"), searchArgs) ] )

/-- Python `float` of the digit/point/comma lexemes `handle_fx_convert`
manipulates: accepted iff the lexeme is digits with at most one point and
at least one digit; the value keeps its lexeme (floating point itself
stays out of scope, and no claim observes these amounts). -/
def pyFloatLex (s : List Char) : Option Json :=
  if s.any isDigitCh ∧ s.all (fun c => isDigitCh c || c == '.')
      ∧ (s.filter (fun c => c == '.')).length ≤ 1 then
    some (.fnum s)
  else none

/-- `handle_fx_convert`. -/
def handleFxConvert (st : AgentSt) (p : List Char) (_m : Option PyMatch) : AgentSt × HRet :=
  let normText := pyLower (deaccent p)
  let amount : Json :=
    match rxSearch amountRx normText with
    | some mm =>
      let amountTxt := (mGroup mm 1).getD []
      let cleaned := (amountTxt.filter (fun c => c != '.')).map
        (fun c => if c == ',' then '.' else c)
      match pyFloatLex cleaned with
      | some v => v
      | none =>
        match pyFloatLex amountTxt with
        | some v => v
        | none => .fnum (cs "1.0")
    | none => .fnum (cs "1.0")
  let tokens := pySplitWs normText
  let codes := tokens.foldl
    (fun (acc : Option (List Char) × Option (List Char)) tok =>
      match normalizeCurrency tok with
      | none => acc
      | some code =>
        match acc with
        | (none, t) => (some code, t)
        | (some b, none) => if code != b then (some b, some code) else (some b, none)
        | done => done)
    (none, none)
  let baseCode := codes.1.getD (cs "USD")
  let targetCode := codes.2.getD (if baseCode != cs "BRL" then cs "BRL" else cs "USD")
  let fx : ArgsMap :=
    [(cs "base", .str baseCode), (cs "target", .str targetCode), (cs "amount", amount)]
  let st := { st with lastFxRequest := .obj fx }
  let (st2, searchArgs) :=
    prepareSearchQuery st p (cs "cotação " ++ baseCode ++ cs " " ++ targetCode) 3 []
  (st2, .hlist [(some (cs "fx.rate"), fx), (some (cs "web.search"), searchArgs)])

def correctionWords : List (List Char) :=
  [ cs "verifique", cs "verificar", cs "confira", cs "corrija", cs "corrigir"
  , cs "diferente", cs "errado", cs "desatual", cs "atualize", cs "atualizar"
  , cs "não está certo", cs "nao está certo", cs "nao esta certo", cs "não esta certo" ]

/-- `handle_correction`. -/
def handleCorrection (st : AgentSt) (p : List Char) (_m : Option PyMatch) : AgentSt × HRet :=
  if !(correctionWords.any (fun w => isSubstr w p)) then (st, .hnone)
  else
    let calls : List (Option (List Char) × ArgsMap) :=
      (match st.lastAsset with
       | .str a =>
         if !a.isEmpty then
           [ ( some (cs "crypto.price")
             , [ (cs "asset", .str a)
               , (cs "vs_currencies", .arr (st.lastPriceVs.map .str)) ] ) ]
         else []
       | j => if pyTruthy j then
           [ ( some (cs "crypto.price")
             , [ (cs "asset", j)
               , (cs "vs_currencies", .arr (st.lastPriceVs.map .str)) ] ) ]
         else [])
    let calls := calls ++
      (match st.lastFxRequest with
       | .obj kvs => if pyTruthy (.obj kvs) then [(some (cs "fx.rate"), kvs)] else []
       | _ => [])
    let baseQuery := pyOrElse st.lastSearchBaseQuery st.lastSearchQuery
    let siteFilters := st.lastSearchSiteFilters
    if pyTruthy baseQuery then
      let bq := pyStrJson baseQuery
      let freshWords :=
        [cs "atualizado", cs "atualização", cs "atualizacao", cs "hoje"]
      let queryExtra :=
        if freshWords.all (fun w => !(isSubstr w bq)) then
          bq ++ cs " atualizado hoje"
        else bq
      let (st2, searchArgs) := prepareSearchQuery st p queryExtra 4 siteFilters
      let calls := calls ++ [(some (cs "web.search"), searchArgs)]
      (st2, if calls.isEmpty then .hnone else .hlist calls)
    else
      (st, if calls.isEmpty then .hnone else .hlist calls)

/-- `handle_fs_path`: the key depends on whether the whole match mentions
`list`; the value is the named group `path` (group 1). -/
def handleFsPath (st : AgentSt) (_p : List Char) (m : Option PyMatch) : AgentSt × HRet :=
  let g0 := (m.map (fun mm => mm.g0)).getD []
  let key := if isSubstr (cs "list") g0 then cs "directory" else cs "path"
  (st, .hargs [(key, .str (mGroupD m 1))])

/-- The lambda of the `help.tools` rule. -/
def handleHelpTools (st : AgentSt) (_p : List Char) (_m : Option PyMatch) : AgentSt × HRet :=
  (st, .hargs [])

/-- The lambda of the `geo.continents` rule. -/
def handleContinents (st : AgentSt) (p : List Char) (_m : Option PyMatch) : AgentSt × HRet :=
  (st, .hargs [(cs "verify_online", .bool (isSubstr (cs "verificar") p))])

/-! ## The rule table (`Agent.heuristic_rules`) -/

structure HRule where
  pat : Option Rx
  kw : List (List (List Char))
  anyKw : List (List Char)
  notKw : List (List (List Char))
  handler : AgentSt → List Char → Option PyMatch → AgentSt × HRet
  tool : List Char

def continentWords : List (List Char) :=
  [ cs "américa", cs "america", cs "caribe", cs "europa", cs "áfrica", cs "africa"
  , cs "ásia", cs "asia", cs "oceania", cs "antártica", cs "antartica" ]

def heuristicRules : List HRule :=
  [ ⟨some ruleTimeDiffRx, [], [], [], handleTimeDiff, cs "sys.time.diff"⟩
  , ⟨some ruleTimeLocRx, [], [], [], handleTimeLoc, cs "sys.time"⟩
  , ⟨none, [[cs "data", cs "hora"], [cs "países", cs "paises"]], continentWords, [],
      handleTimeBulk, cs "sys.time.bulk"⟩
  , ⟨none, [[cs "países", cs "paises"]], continentWords, [[cs "data", cs "hora"]],
      handleGeoCountries, cs "geo.countries"⟩
  , ⟨some ruleFxRx, [], [], [], handleFxConvert, cs "fx.rate"⟩
  , ⟨some rulePriceRx, [], [], [], handlePriceSearch, cs "web.search"⟩
  , ⟨some ruleCorrectionRx, [], [], [], handleCorrection, cs "web.search"⟩
  , ⟨none, [[cs "pesquisa", cs "pesquise", cs "pesquisar", cs "buscar"],
      [cs "internet", cs "web"]], [], [], handleWebSearch, cs "web.search"⟩
  , ⟨none, [[cs "ferramentas"], [cs "listar", cs "liste", cs "quais"]], [], [],
      handleHelpTools, cs "help.tools"⟩
  , ⟨none, [[cs "continentes"], [cs "quais", cs "nomes", cs "lista", cs "listar",
      cs "quantos"]], [], [], handleContinents, cs "geo.continents"⟩
  , ⟨some ruleFsListRx, [], [], [], handleFsPath, cs "fs.list"⟩
  , ⟨some ruleFsReadRx, [], [], [], handleFsPath, cs "fs.read"⟩ ]

/-- One loop step of `_heuristic_tool_calls` over the rule list. -/
def htcGo (st : AgentSt) (p : List Char) : List HRule → AgentSt × List (List Char × ArgsMap)
  | [] => (st, [])
  | rule :: rest =>
    let mm : Option (Option PyMatch) :=
      match rule.pat with
      | some rx =>
        match rxSearch rx p with
        | some m => some (some m)
        | none => none
      | none => some none
    match mm with
    | none => htcGo st p rest
    | some m =>
      if !(rule.kw.all (fun alts => alts.any (fun k => isSubstr k p))) then
        htcGo st p rest
      else if !rule.anyKw.isEmpty ∧ !(rule.anyKw.any (fun k => isSubstr k p)) then
        htcGo st p rest
      else if !rule.notKw.isEmpty ∧
          rule.notKw.any (fun alts => alts.all (fun k => isSubstr k p)) then
        htcGo st p rest
      else
        match rule.handler st p m with
        | (st2, .hnone) => htcGo st2 p rest
        | (st2, .hargs a) => (st2, [(rule.tool, a)])
        | (st2, .hlist items) =>
          let calls := items.map (fun it =>
            ( (match it.1 with
               | some t => if t.isEmpty then rule.tool else t
               | none => rule.tool)
            , it.2 ))
          if calls.isEmpty then htcGo st2 p rest else (st2, calls)

/-- `Agent._heuristic_tool_calls`. -/
def heuristicToolCalls (st : AgentSt) (prompt : List Char) :
    AgentSt × List (List Char × ArgsMap) :=
  htcGo st (pyStrip (pyLower prompt)) heuristicRules

/-! ## `Agent._run_heuristic_shortcuts`

Each forced call runs inside the source's `try`: an exception from
`call_tool` is swallowed and the loop moves to the next call with the
state it had at the raise (appends made before it persist).  The
formatting helpers below model the Python f-string number formats for
integers; non-integral numbers keep their lexeme (floating point is out
of scope and no claim observes these renderings). -/

def pyUpperChar (c : Char) : Char :=
  if 'a' ≤ c ∧ c ≤ 'z' then Char.ofNat (c.toNat - 32)
  else if 'à' ≤ c ∧ c ≤ 'þ' ∧ c ≠ '÷' then Char.ofNat (c.toNat - 32)
  else c

def pyUpper (s : List Char) : List Char := s.map pyUpperChar

/-- `isinstance(j, dict)`. -/
def isObj (j : Json) : Bool :=
  match j with
  | .obj _ => true
  | _ => false

/-- Digits of `n` with thousands commas. -/
def thousandsGroups (n : Nat) : List Char :=
  let ds := natChars n
  let k := ds.length
  (ds.enum.map (fun p =>
    if p.1 != 0 ∧ (k - p.1) % 3 == 0 then [',', p.2] else [p.2])).flatten

/-- `f"\x7bn:,.2f\x7d"` for an integer. -/
def fmtComma2f (i : Int) : List Char :=
  (if i < 0 then ['-'] else []) ++ thousandsGroups i.natAbs ++ cs ".00"

/-- `f"\x7bn:,.4f\x7d"` for an integer. -/
def fmtComma4f (i : Int) : List Char :=
  (if i < 0 then ['-'] else []) ++ thousandsGroups i.natAbs ++ cs ".0000"

/-- The `.replace(",", "_").replace(".", ",").replace("_", ".")` chain:
swap commas and points. -/
def swapSep (s : List Char) : List Char :=
  s.map (fun c => if c == ',' then '.' else if c == '.' then ',' else c)

/-- `f"\x7bj:,.2f\x7d"` then the pt-BR separator swap, applied to a JSON
number (lexeme kept for non-integers). -/
def ptMoney (j : Json) : List Char :=
  match j with
  | .num n => swapSep (fmtComma2f n)
  | .fnum lex => lex
  | _ => []

/-- `f"\x7bj:+.2f\x7d"` for a JSON number. -/
def fmtPlus2f (j : Json) : List Char :=
  match j with
  | .num n => (if n < 0 then ['-'] else ['+']) ++ natChars n.natAbs ++ cs ".00"
  | .fnum lex => lex
  | _ => []

/-- `f"\x7bj:.1f\x7d"` for a JSON number. -/
def fmtDot1 (j : Json) : List Char :=
  match j with
  | .num n => intChars n ++ cs ".0"
  | .fnum lex => lex
  | _ => []

/-- `isinstance(j, (int, float))`. -/
def isIF (j : Json) : Bool :=
  match j with
  | .num _ => true
  | .fnum _ => true
  | _ => false

/-- `j >= k` for the staleness checks (integer part for lexemes). -/
def jNumGe (j : Json) (k : Int) : Bool :=
  match j with
  | .num n => k ≤ n
  | .fnum lex => k ≤ Int.ofNat (natFromDigits (lex.takeWhile isDigitCh))
  | _ => false

/-- Python `int()` of a JSON value; `none` models the raise. -/
def pyIntE (j : Json) : Option Int :=
  match j with
  | .num n => some n
  | .bool b => some (if b then 1 else 0)
  | .str s =>
    let t := pyStrip s
    let (sgn, ds) := match t with
      | '-' :: u => ((-1 : Int), u)
      | '+' :: u => (1, u)
      | u => (1, u)
    if !ds.isEmpty ∧ ds.all isDigitCh then some (sgn * Int.ofNat (natFromDigits ds))
    else none
  | _ => none

/-- `"sep".join(xs)` over JSON values, raising unless all are strings. -/
def pyJoinStrs (sep : List Char) (xs : List Json) : Option (List Char) :=
  if xs.all (fun x => match x with | .str _ => true | _ => false) then
    some (joinWith sep (xs.map pyStrJson))
  else none

/-- Outcome of one iteration of the `for c in forced_calls` body. -/
inductive COut where
  | ret (ans : List Char)
  | fall

/-- The `<tool_call>` turn the engine shows the model before dispatching a
forced call (`json.dumps(c)` of the `\x7b"tool", "args"\x7d` dict). -/
def toolCallText (tool : List Char) (args : ArgsMap) : List Char :=
  cs "<tool_call>" ++
    jsonDump (.obj [(cs "tool", .str tool), (cs "args", .obj args)]) ++
    cs "</tool_call>"

/-- The session state after a forced call whose dispatch raised: the
assistant tool-call turn and the dispatch record stay, nothing else
happened. -/
def afterRaisedCall (st : AgentSt) (tool : List Char) (args : ArgsMap) : AgentSt :=
  let st1 := addAssistantT st (toolCallText tool args)
  { st1 with
    nDispatch := st1.nDispatch + 1
    dispatches := st1.dispatches ++ [(.str tool, .obj args)] }

/-- The `(?:...)`-style URL dedup loop of the `web.search` branch. -/
def collectUrls (limit : Int) :
    List Json → List (List Char) → List Json → List (List Char) × List Json
  | [], urls, items => (urls, items)
  | item :: rest, urls, items =>
    match item with
    | .obj kvs =>
      let url := jGetD (.obj kvs) (cs "url") .null
      if !pyTruthy url || urls.contains (pyStrJson url) then
        collectUrls limit rest urls items
      else
        let urls2 := urls ++ [pyStrJson url]
        let items2 := items ++ [(Json.obj kvs)]
        if limit ≤ (urls2.length : Int) then (urls2, items2)
        else collectUrls limit rest urls2 items2
    | _ => collectUrls limit rest urls items

/-- The `fontes` formatter of the `web.search` branch (`enumerate(..., 1)`). -/
def buildFontes (idx : Nat) : List Json → List (List Char)
  | [] => []
  | item :: rest =>
    let url := pyStrJson (pyOrElse (jGetD item (cs "url") .null) (.str []))
    let titleJ := pyOrElse (jGetD item (cs "title") .null)
      (pyOrElse (.str url) (.str (cs "Fonte sem título")))
    let title := pyStrip (pyStrJson titleJ)
    let snippet := pyStrip (pyStrJson (pyOrElse (jGetD item (cs "snippet") .null) (.str [])))
    let snippet := if 280 < snippet.length then snippet.take 277 ++ cs "…" else snippet
    let line := natChars idx ++ cs ". " ++ title ++ cs "\n   URL: " ++ url ++
      cs "\n   Snippet: " ++ (if snippet.isEmpty then cs "—" else snippet)
    line :: buildFontes (idx + 1) rest

def searchGuidance : List Char :=
  cs "Com base nas páginas coletadas acima, produza uma resposta em Português do Brasil, resumindo as informações principais e citando explicitamente as fontes relevantes pelo respectivo URL. Se as páginas não tiverem dados suficientes, explique o que falta."

/-- The `crypto.price` summary lines over `prices.items()`. -/
def cryptoLines (changes : Json) : List (List Char × Json) → List (List Char)
  | [] => []
  | (fiat, price) :: rest =>
    let priceStr := if isIF price then ptMoney price else pyStrJson price
    let change := jGetD changes fiat .null
    let line :=
      if isIF change then
        pyUpper fiat ++ cs ": " ++ priceStr ++ cs " (" ++ fmtPlus2f change ++ cs "% em 24h)"
      else pyUpper fiat ++ cs ": " ++ priceStr
    line :: cryptoLines changes rest

/-- The `sys.time.bulk` per-country lines. -/
def bulkLines : List Json → List (List Char)
  | [] => []
  | it :: rest =>
    match it with
    | .obj kvs =>
      let itj := Json.obj kvs
      let line :=
        if !pyTruthy (jGetD itj (cs "ok") .null) then
          cs "- " ++ pyStrJson (jGetD itj (cs "country") .null) ++ cs ": erro (" ++
            pyStrJson (jGetD itj (cs "error") .null) ++ cs ")"
        else
          cs "- " ++ pyStrJson (jGetD itj (cs "country") .null) ++ cs ": " ++
            pyStrJson (jGetD itj (cs "texto") .null) ++ cs " (" ++
            pyStrJson (jGetD itj (cs "tz") .null) ++ cs ")"
      line :: bulkLines rest
    | _ => bulkLines rest

/-- The `help.tools` listing lines; `none` models the `KeyError` raise on
a malformed entry. -/
def helpToolLines : List Json → Option (List (List Char))
  | [] => some []
  | spec :: rest =>
    match jGet spec (cs "name"), jGet spec (cs "description") with
    | some nameJ, some descJ =>
      let params := match jGetD spec (cs "params") (.obj []) with
        | .obj kvs => joinWith (cs ", ") (kvs.map (·.1))
        | _ => []
      (helpToolLines rest).map (fun t =>
        (cs "- **" ++ pyStrJson nameJ ++ cs "**: " ++ pyStrJson descJ ++ cs " `\x7b" ++
          params ++ cs "\x7d`") :: t)
    | _, _ => none

/-- The `geo.countries` parts. -/
def geoParts : List Json → Option (List (List Char))
  | [] => some []
  | reg :: rest =>
    match reg with
    | .obj kvs =>
      let regj := Json.obj kvs
      if !pyTruthy (jGetD regj (cs "ok") .null) then geoParts rest
      else
        let nome := jGetD regj (cs "region") .null
        let paisesJ := pyOrElse (jGetD regj (cs "countries") .null) (.arr [])
        match paisesJ with
        | .arr paises =>
          match pyJoinStrs (cs "\n- ") paises with
          | some joined =>
            (geoParts rest).map (fun t =>
              (pyStrJson nome ++ cs ": " ++ natChars paises.length ++ cs " países\n- " ++
                joined) :: t)
          | none => none
        | _ => none
    | _ => geoParts rest

/-- One iteration of the `for c in forced_calls` loop of
`_run_heuristic_shortcuts` (the body of the source's `try`; a modelled
raise yields `.fall` with the state accumulated so far, which is the
`except Exception: pass`). -/
def processCall (cfg : LoopCfg) (st : AgentSt) (tool : List Char) (args : ArgsMap) :
    AgentSt × COut :=
  let st := addAssistantT st (toolCallText tool args)
  match callToolTraced cfg st (.str tool) (.obj args) with
  | (st, .error _) => (st, .fall)
  | (st, .ok result) =>
    let st := addUserT st (formatToolResult result)
    if tool == cs "sys.time" ∧ isObj result ∧ pyTruthy (jGetD result (cs "ok") .null) then
      let loc := pyOrElse ((dictGet args (cs "location")).getD .null)
        ((dictGet args (cs "tz")).getD .null)
      let prefixo := if pyTruthy loc then cs "em " ++ pyStrJson loc else cs "atual"
      let texto := pyOrElse (jGetD result (cs "texto") .null) (jGetD result (cs "iso") .null)
      let tz := jGetD result (cs "tz") .null
      let final := cs "Data e hora " ++ prefixo ++ cs ": " ++ pyStrJson texto ++
        cs " (" ++ pyStrJson tz ++ cs ")."
      (st, .ret final)
    else if tool == cs "geo.countries" ∧ isObj result ∧
        pyTruthy (jGetD result (cs "ok") .null) then
      let regsJ := pyOrElse (jGetD result (cs "regions") .null) (.arr [])
      match regsJ with
      | .arr regs =>
        match geoParts regs with
        | some parts =>
          let final :=
            if !parts.isEmpty then joinWith (cs "\n\n") parts
            else cs "Não encontrei países para as regiões especificadas."
          (addAssistantT st final, .ret final)
        | none => (st, .fall)
      | _ => (st, .fall)
    else if tool == cs "help.tools" ∧ isObj result ∧
        pyTruthy (jGetD result (cs "ok") .null) then
      let toolsJ := pyOrElse (jGetD result (cs "tools") .null) (.arr [])
      match toolsJ with
      | .arr toolsList =>
        if toolsList.isEmpty then (st, .ret (cs "Nenhuma ferramenta encontrada."))
        else
          match helpToolLines toolsList with
          | some lines =>
            (st, .ret (joinWith (cs "\n") (cs "Ferramentas disponíveis:" :: lines)))
          | none => (st, .fall)
      | _ => (st, .fall)
    else if tool == cs "geo.continents" ∧ isObj result ∧
        pyTruthy (jGetD result (cs "ok") .null) then
      let nomesJ := pyOrElse (jGetD result (cs "continents") .null) (.arr [])
      match nomesJ with
      | .arr nomes =>
        match pyJoinStrs (cs "\n- ") nomes with
        | some joined =>
          let total := jGetD result (cs "count") .null
          let final := cs "Os continentes são (" ++ pyStrJson total ++ cs "):\n- " ++ joined
          (addAssistantT st final, .ret final)
        | none => (st, .fall)
      | _ => (st, .fall)
    else if tool == cs "fs.list" ∧ isObj result ∧
        pyTruthy (jGetD result (cs "ok") .null) then
      let itemsJ := jGetD result (cs "items") (.arr [])
      let directory := jGetD result (cs "directory") (.str (cs "o diretório solicitado"))
      match itemsJ with
      | .arr items =>
        if items.isEmpty then
          (st, .ret (cs "Nenhum arquivo encontrado em " ++ pyStrJson directory ++ cs "."))
        else
          match pyJoinStrs (cs "\n- ") (items.take 200) with
          | some joined =>
            let truncated := 200 < items.length
            let final := cs "Arquivos em " ++ pyStrJson directory ++ cs ":\n- " ++ joined
            let final :=
              if truncated then
                final ++ cs "\n\n(e mais " ++ natChars (items.length - 200) ++ cs " outros...)"
              else final
            (st, .ret final)
          | none => (st, .fall)
      | _ => (st, .fall)
    else if tool == cs "web.search" ∧ isObj result ∧
        pyTruthy (jGetD result (cs "ok") .null) then
      let resultsJ := pyOrElse (jGetD result (cs "results") .null) (.arr [])
      match resultsJ with
      | .arr results =>
        if results.isEmpty then
          let final := cs "Não encontrei resultados relevantes na busca."
          (addAssistantT st final, .ret final)
        else
          match pyIntE (pyOrElse ((dictGet args (cs "limit")).getD (.num 3)) (.num 3)) with
          | none => (st, .fall)
          | some limit =>
            let (orderedUrls, orderedItems) := collectUrls limit results [] []
            if orderedUrls.isEmpty then
              let final := cs "Não encontrei URLs acessíveis nos resultados da busca."
              (addAssistantT st final, .ret final)
            else
              let c2 : Json := .obj
                [ (cs "tool", .str (cs "web.get_many"))
                , (cs "args", .obj [(cs "urls", .arr (orderedUrls.map .str))]) ]
              let st := addAssistantT st
                (cs "<tool_call>" ++ jsonDump c2 ++ cs "</tool_call>")
              match callToolTraced cfg st (.str (cs "web.get_many"))
                  (.obj [(cs "urls", .arr (orderedUrls.map .str))]) with
              | (st, .error _) => (st, .fall)
              | (st, .ok r2) =>
                let st := addUserT st (formatToolResult r2)
                let st := { st with lastSearchUrls := orderedUrls, lastSearchLimit := limit }
                let fontes := buildFontes 1 orderedItems
                let st :=
                  if !fontes.isEmpty then
                    addUserT st (cs "Fontes pesquisadas:\n" ++ joinWith (cs "\n") fontes)
                  else st
                let st := addUserT st searchGuidance
                (st, .ret (cs "continue"))
      | _ => (st, .fall)
    else if tool == cs "crypto.price" ∧ isObj result then
      if pyTruthy (jGetD result (cs "ok") .null) then
        let asset := pyOrElse (jGetD result (cs "asset") .null)
          (pyOrElse ((dictGet args (cs "asset")).getD .null) (.str (cs "criptoativo")))
        let prices := pyOrElse (jGetD result (cs "prices") .null) (.obj [])
        let changes := pyOrElse (jGetD result (cs "changes_24h") .null) (.obj [])
        let vsList := pyOrElse (jGetD result (cs "vs_currencies") .null)
          (.arr (st.lastPriceVs.map .str))
        let st := match vsList with
          | .arr xs => { st with lastPriceVs := xs.map (fun v => pyLower (pyStrJson v)) }
          | _ => st
        let st := { st with lastAsset := asset }
        let lines := match prices with
          | .obj kvs => cryptoLines changes kvs
          | _ => []
        let updated := jGetD result (cs "last_updated_iso") .null
        let hoursDiff := jGetD result (cs "last_updated_hours_ago") .null
        let summary := [cs "Dados em tempo real via CoinGecko para " ++ pyStrJson asset ++ cs ":"]
        let summary := summary ++
          (if !lines.isEmpty then lines.map (fun l => cs "- " ++ l)
           else [cs "- Nenhum preço disponível nesta consulta."])
        let summary := summary ++
          (if pyTruthy updated then
            [ cs "Última atualização (UTC): " ++ pyStrJson updated ++
                (if isIF hoursDiff then
                  cs " (~" ++ fmtDot1 hoursDiff ++ cs "h atrás)" ++
                    (if jNumGe hoursDiff 3 then cs " [verifique fontes adicionais]" else [])
                 else []) ]
           else [])
        let summary := summary ++ [cs "Fonte: https://www.coingecko.com"]
        (addUserT st (joinWith (cs "\n") summary), .fall)
      else
        (addUserT st (cs "Falha ao consultar a CoinGecko; tentando fontes alternativas."),
          .fall)
    else if tool == cs "fx.rate" ∧ isObj result then
      if pyTruthy (jGetD result (cs "ok") .null) then
        let base := pyOrElse (jGetD result (cs "base") .null)
          (pyOrElse ((dictGet args (cs "base")).getD .null) (.str (cs "USD")))
        let target := pyOrElse (jGetD result (cs "target") .null)
          (pyOrElse ((dictGet args (cs "target")).getD .null) (.str (cs "BRL")))
        let amount := pyOrElse (jGetD result (cs "amount") .null)
          (pyOrElse ((dictGet args (cs "amount")).getD .null) (.num 1))
        let rate := jGetD result (cs "rate") .null
        let converted := jGetD result (cs "converted") .null
        let hoursDiff := jGetD result (cs "last_updated_hours_ago") .null
        let st := { st with lastFxRequest :=
          (Json.obj [(cs "base", base), (cs "target", target), (cs "amount", amount)]) }
        let convStr := if isIF converted then ptMoney converted else pyStrJson converted
        let amountStr := if isIF amount then ptMoney amount else pyStrJson amount
        let summary := [cs "Conversão em tempo real (exchangerate.host):"]
        let summary := summary ++
          [cs "- " ++ amountStr ++ cs " " ++ pyStrJson base ++ cs " = " ++ convStr ++
            cs " " ++ pyStrJson target]
        let summary := summary ++
          (if isIF rate then
            [cs "- 1 " ++ pyStrJson base ++ cs " = " ++
              (match rate with
               | .num n => fmtComma4f n
               | .fnum lex => lex
               | _ => []) ++ cs " " ++ pyStrJson target]
           else [])
        let updated := pyOrElse (jGetD result (cs "last_updated_iso") .null)
          (jGetD result (cs "date") .null)
        let summary := summary ++
          (if pyTruthy updated then
            [ cs "Dados de " ++ pyStrJson updated ++
                (if isIF hoursDiff then
                  cs " (~" ++ fmtDot1 hoursDiff ++ cs "h atrás)" ++
                    (if jNumGe hoursDiff 3 then cs " [recomendo confirmar novamente]" else [])
                 else []) ]
           else [])
        let summary := summary ++ [cs "Fonte: https://api.exchangerate.host/convert"]
        (addUserT st (joinWith (cs "\n") summary), .fall)
      else
        (addUserT st
          (cs "Não foi possível obter a cotação em tempo real; confira outras fontes."),
          .fall)
    else if tool == cs "sys.time.bulk" ∧ isObj result ∧
        pyTruthy (jGetD result (cs "ok") .null) then
      let itemsJ := pyOrElse (jGetD result (cs "items") .null) (.arr [])
      match itemsJ with
      | .arr items =>
        let lines := bulkLines items
        let header :=
          if !lines.isEmpty then cs "Data e hora por país:" else cs "Nenhum país processado."
        let final := header ++ cs "\n" ++ joinWith (cs "\n") lines
        (addAssistantT st final, .ret final)
      | _ => (st, .fall)
    else (st, .fall)

/-- The `for c in forced_calls` loop. -/
def runShortcutsCore (cfg : LoopCfg) (st : AgentSt) :
    List (List Char × ArgsMap) → AgentSt × Option (List Char)
  | [] => (st, none)
  | c :: rest =>
    match processCall cfg st c.1 c.2 with
    | (st2, .ret ans) => (st2, some ans)
    | (st2, .fall) => runShortcutsCore cfg st2 rest

/-- `Agent._run_heuristic_shortcuts`. -/
def runHeuristicShortcuts (cfg : LoopCfg) (st : AgentSt) (prompt : List Char) :
    AgentSt × Option (List Char) :=
  match heuristicToolCalls st prompt with
  | (st1, calls) =>
    match runShortcutsCore cfg st1 calls with
    | (st2, some ans) => (st2, some ans)
    | (st2, none) => (st2, if calls.isEmpty then none else some (cs "continue"))

/-! ## `Agent.run` (`assistant_cli/agent.py`, lines 618–779) -/

/-- `SYSTEM_PROMPT` (the adjacent string literals of the source,
concatenated). -/
def systemPromptBase : List Char :=
  cs "Você é a Lori, uma assistente de IA para o terminal, programada para ser proativa, inteligente e amigável. Sua personalidade é colaborativa e você busca sempre a melhor maneira de ajudar, respondendo em Português do Brasil.\n" ++
  cs "Para executar ações, use as ferramentas disponíveis (fs.*, web.*, edit.*, shell.*, git.*, sys.*, geo.*).\n" ++
  cs "Quando uma ferramenta for necessária, sua resposta DEVE conter um único bloco <tool_call> com o JSON da chamada.\n" ++
  cs "Exemplo de chamada: <tool_call>\x7b\"tool\":\"fs.read\",\"args\":\x7b\"path\":\"arquivo.txt\"\x7d\x7d</tool_call>\n" ++
  cs "Após o resultado da ferramenta (<tool_result>), você pode usar outra ferramenta ou fornecer a resposta final.\n" ++
  cs "Se a pergunta for uma conversa ou não precisar de ferramentas, responda diretamente.\n" ++
  cs "Pense passo a passo. Se um caminho de arquivo não for fornecido, use as ferramentas para encontrá-lo. Não invente caminhos.\n" ++
  cs "Quando o usuário apontar divergências, dados desatualizados ou pedir conferência, execute novamente as ferramentas relevantes, compare as fontes e explique as diferenças.\n" ++
  cs "Para cotações de criptoativos, priorize a ferramenta crypto.price, informe sempre horário (UTC) e variação das últimas 24 horas e cite a fonte."

/-- The dynamic tools help built in `Agent.__init__` from the registry. -/
def toolsHelpLines : List (List Char) :=
  cs "Ferramentas disponíveis (use exatamente estes nomes):" ::
    registryParams.map (fun e =>
      cs "- " ++ e.1 ++ cs " \x7b" ++ joinWith (cs ", ") e.2 ++ cs "\x7d")

def systemPromptFull : List Char :=
  systemPromptBase ++ cs "\n" ++ joinWith (cs "\n") toolsHelpLines

/-- The agent state right after `Agent.__init__`. -/
def mkAgentSt : AgentSt :=
  { messages := [⟨.system, systemPromptFull⟩]
  , lastAsset := .null
  , lastPriceVs := [cs "brl", cs "usd"]
  , lastSearchQuery := .null
  , lastSearchBaseQuery := .null
  , lastSearchSiteFilters := []
  , lastSearchUrls := []
  , lastSearchLimit := 3
  , lastFxRequest := .null
  , approved := []
  , expecting := false
  , toolSuccess := false
  , retries := 0
  , nInfer := 0
  , nDispatch := 0
  , dispatches := []
  , nPrompt := 0 }

/-- `expects_tool_use` (nested in `Agent.run`). -/
def expectsToolUse (text : List Char) : Bool :=
  let pl := pyLower text
  [ cs "<tool_call>", cs "fs.", cs "web.", cs "edit.", cs "shell.", cs "git.", cs "sys."
  , cs "geo.", cs "leia", cs "ler ", cs "abrir ", cs "liste", cs "listar", cs "busque"
  , cs "pesquise", cs "pesquisa", cs "executar", cs "rodar", cs "use " ].any
    (fun k => isSubstr k pl)

/-- `is_path_approved` (nested in `Agent.run`): falsy paths and raising
resolutions give `False`; otherwise the resolved target must sit under a
previously approved directory. -/
def isPathApproved (cfg : LoopCfg) (approved : List (List String)) (rawPath : Json) : Bool :=
  if !pyTruthy rawPath then false
  else
    match rawPath with
    | .str s =>
      match cfg.resolve s with
      | some target => approved.any (fun d => d.isPrefixOf target)
      | none => false
    | _ => false

/-- `remember_approval` (nested in `Agent.run`): a directory approves
itself, a file its parent; `_approved_paths` is a set, so insertion

keeps it duplicate-free. -/
def rememberApproval (cfg : LoopCfg) (st : AgentSt) (rawPath : Json) : AgentSt :=
  if !pyTruthy rawPath then st
  else
    match rawPath with
    | .str s =>
      match cfg.resolve s with
      | some target =>
        let d := if cfg.isDir target then target else target.dropLast
        if st.approved.contains d then st else { st with approved := st.approved ++ [d] }
      | none => st
    | _ => st

def nudgeMsg : List Char :=
  cs "Use estritamente a sintaxe <tool_call>\x7b...\x7d</tool_call> para executar as ações (fs.*, web.*, edit.*, shell.*, git.*). Não forneça comandos de shell genéricos."

def errorFeedbackMsg (errorCode : List Char) : List Char :=
  cs "Erro: A chamada da ferramenta falhou: " ++ errorCode ++
    cs ". Verifique os argumentos e as ferramentas disponíveis e tente novamente."

def yesList : List (List Char) := [cs "s", cs "sim", cs "y", cs "yes"]

def userDeniedResult : Json :=
  Json.obj [(cs "ok", .bool false), (cs "error", .str (cs "user_denied"))]

/-- `rerun_args = dict(args); rerun_args["__allow_outside_root"] = True`
(`args` is an object whenever the confirm branch is reached — a truthy
non-dict would already have raised inside the first `call_tool`). -/
def overrideArgs (argsJ : Json) : Json :=
  match argsJ with
  | .obj kvs => .obj (dictSet kvs (cs "__allow_outside_root") (.bool true))
  | j => j

/-- The `confirm_required` handling of `Agent.run` (lines 704–734):
approved paths re-dispatch silently with the override; otherwise the
caller is prompted, and denial substitutes the `user_denied` result.  The
re-dispatch sits in a `try`, its exception becoming an error result. -/
def handleConfirm (cfg : LoopCfg) (st : AgentSt) (nameJ argsJ result : Json) :
    AgentSt × Json :=
  if isObj result ∧ pyTruthy (jGetD result (cs "confirm_required") .null) then
    let pathJ := jGetD result (cs "path") .null
    if isPathApproved cfg st.approved pathJ then
      match callToolTraced cfg st nameJ (overrideArgs argsJ) with
      | (st, .ok v) => (st, v)
      | (st, .error e) => (st, .obj [(cs "ok", .bool false), (cs "error", .str e)])
    else
      let resp := pyLower (pyStrip (cfg.userIn st.nPrompt))
      let st := { st with nPrompt := st.nPrompt + 1 }
      if yesList.contains resp then
        let st := rememberApproval cfg st pathJ
        match callToolTraced cfg st nameJ (overrideArgs argsJ) with
        | (st, .ok v) => (st, v)
        | (st, .error e) => (st, .obj [(cs "ok", .bool false), (cs "error", .str e)])
      else (st, userDeniedResult)
  else (st, result)

inductive RoundOut where
  | next
  | retR (ans : List Char)
  | excR (e : List Char)
deriving DecidableEq

/-- The result handling of `Agent.run` (lines 736–764). -/
def processToolResult (st : AgentSt) (result : Json) : AgentSt × RoundOut :=
  if isObj result then
    let isOk := jGetD result (cs "ok") (.bool true)
    let notOk := !pyTruthy isOk
    let errorCode := if notOk then pyStrJson (jGetD result (cs "error") .null) else []
    let tailStep : AgentSt → AgentSt × RoundOut := fun st =>
      let st := addUserT st (formatToolResult result)
      if notOk then
        ( if errorCode == cs "user_denied" then { st with expecting := false } else st
        , .next )
      else ({ st with toolSuccess := true }, .next)
    if notOk ∧ errorCode != cs "user_denied" then
      let st := addUserT st (errorFeedbackMsg errorCode)
      if st.retries < 2 then
        let st := { st with retries := st.retries + 1 }
        (addUserT st (formatToolResult result), .next)
      else tailStep st
    else tailStep st
  else
    ( addUserT st (formatToolResult (.obj [(cs "ok", .bool true), (cs "result", result)]))
    , .next )

/-- `name = tool_call.get("tool")`. -/
def toolNameOf (tc : Json) : Json := (jGet tc (cs "tool")).getD .null

/-- `args = tool_call.get("args") or \x7b\x7d`. -/
def toolArgsOf (tc : Json) : Json :=
  match jGet tc (cs "args") with
  | some v => if pyTruthy v then v else Json.obj []
  | none => Json.obj []

/-- One iteration of the `for _ in range(12)` loop of `Agent.run`. -/
def runRound (cfg : LoopCfg) (st : AgentSt) : AgentSt × RoundOut :=
  let text := cfg.model st.nInfer
  let st := addAssistantT { st with nInfer := st.nInfer + 1 } text
  match extractToolCall text with
  | none =>
    if st.expecting ∧ !st.toolSuccess ∧ st.retries < 2 then
      ({ addUserT st nudgeMsg with retries := st.retries + 1 }, .next)
    else (st, .retR (stripInternal text))
  | some tc =>
    let nameJ := toolNameOf tc
    let argsJ := toolArgsOf tc
    match callToolTraced cfg st nameJ argsJ with
    | (st, .error e) => (st, .excR e)
    | (st, .ok result0) =>
      let (st, result) := handleConfirm cfg st nameJ argsJ result0
      processToolResult st result

inductive LoopExit where
  | fell
  | ans (a : List Char)
  | exc (e : List Char)
deriving DecidableEq

/-- The bounded round loop. -/
def runLoop (cfg : LoopCfg) : Nat → AgentSt → AgentSt × LoopExit
  | 0, st => (st, .fell)
  | n + 1, st =>
    match runRound cfg st with
    | (st2, .next) => runLoop cfg n st2
    | (st2, .retR a) => (st2, .ans a)
    | (st2, .excR e) => (st2, .exc e)

inductive TKind where
  | shortcut
  | finalText
  | exhausted
deriving DecidableEq

structure RunRes where
  answer : List Char
  final : AgentSt
  terminal : TKind
  savedHistory : Bool

/-- The model-loop phase of `Agent.run`: the round loop, then either the
in-loop return (no history write) or the fallthrough after 12 rounds
(history write, then the last assistant turn sanitised). -/
def agentRunLoopPhase (cfg : LoopCfg) (st1 : AgentSt) (prompt : List Char)
    (succ : Bool) : Except (List Char) RunRes :=
  let st := { st1 with
    expecting := expectsToolUse prompt
    toolSuccess := succ
    retries := 0 }
  match runLoop cfg 12 st with
  | (st2, .ans a) => .ok ⟨a, st2, .finalText, false⟩
  | (_, .exc e) => .error e
  | (st2, .fell) =>
    let content :=
      match st2.messages.getLast? with
      | some t => if t.role == .assistant then t.content else []
      | none => []
    .ok ⟨stripInternal content, st2, .exhausted, true⟩

/-- `Agent.run` from an arbitrary session state (the same instance serves
several runs in a session); an uncaught Python exception is `.error`. -/
def agentRunFrom (cfg : LoopCfg) (st0 : AgentSt) (prompt : List Char) :
    Except (List Char) RunRes :=
  let st := addUserT st0 prompt
  let (st1, shortcutAnswer) := runHeuristicShortcuts cfg st prompt
  match shortcutAnswer with
  | some ans =>
    if ans != cs "continue" then .ok ⟨ans, st1, .shortcut, false⟩
    else agentRunLoopPhase cfg st1 prompt true
  | none => agentRunLoopPhase cfg st1 prompt false

/-- `Agent.run` on a freshly constructed agent. -/
def agentRun (cfg : LoopCfg) (prompt : List Char) : Except (List Char) RunRes :=
  agentRunFrom cfg mkAgentSt prompt

/-! ## Concrete oracle instances

Closed collaborator behaviours used to exercise the embedding on the
concrete scenarios of the theorems below (an always-raising tool body, a
backend that answers fixed texts, a sandbox that reports a fixed
resolution). -/

def execBoom : Nat → List Char → ArgsMap → Except (List Char) Json :=
  fun _ _ _ => .error (cs "boom")

def resolveNone : List Char → Option (List String) := fun _ => none

def cfgBoom : LoopCfg :=
  { model := fun _ => []
  , exec := execBoom
  , userIn := fun _ => cs "n"
  , isDir := fun _ => false
  , resolve := resolveNone }

def modelUnknownTool : Nat → List Char := fun i =>
  if i == 0 then cs "<tool_call>\x7b\"tool\": \"zzz\", \"args\": \x7b\x7d\x7d</tool_call>"
  else cs "Pronto."

def cfgUnknownTool : LoopCfg := { cfgBoom with model := modelUnknownTool }

def modelPlainText : Nat → List Char := fun i =>
  if i == 0 then cs "ok" else cs "Pronto."

def cfgPlainText : LoopCfg := { cfgBoom with model := modelPlainText }

def cfgStubborn : LoopCfg :=
  { cfgBoom with model := fun _ => cs "Não consigo usar a ferramenta." }

def cfgStubborn2 : LoopCfg :=
  { cfgBoom with model := fun _ => cs "Desculpe, não vou chamar ferramentas." }

def cfgOla : LoopCfg :=
  { cfgBoom with model := fun _ => cs "Olá! Como posso ajudar?" }

def modelFsWrite : Nat → List Char := fun i =>
  if i == 0 then
    cs "<tool_call>\x7b\"tool\": \"fs.write\", \"args\": \x7b\"path\": \"/root/file\", \"content\": \"...\"\x7d\x7d</tool_call>"
  else cs "Ok."

def confirmWriteResult : Json :=
  .obj [ (cs "ok", .bool false), (cs "confirm_required", .bool true)
       , (cs "action", .str (cs "fs.write")), (cs "path", .str (cs "/root/file"))
       , (cs "reason", .str (cs "write outside ASSISTANT_ROOT (confirmation required)")) ]

def execConfirmWrite : Nat → List Char → ArgsMap → Except (List Char) Json :=
  fun _ _ _ => .ok confirmWriteResult

def cfgDeny : LoopCfg := { cfgBoom with model := modelFsWrite, exec := execConfirmWrite }

def resolveRootFile : List Char → Option (List String) := fun s =>
  if s == cs "/root/file" then some ["root", "file"] else none

def execConfirmThenOk : Nat → List Char → ArgsMap → Except (List Char) Json :=
  fun i _ _ =>
    if i == 0 then .ok confirmWriteResult
    else .ok (.obj [(cs "ok", .bool true), (cs "path", .str (cs "/root/file")), (cs "bytes", .num 3)])

def cfgBypass : LoopCfg :=
  { cfgBoom with model := modelFsWrite, exec := execConfirmThenOk, resolve := resolveRootFile }

/-- A session state that has already approved `/root`. -/
def stApprovedRoot : AgentSt := { mkAgentSt with approved := [["root"]] }

/-! # Theorems -/

/-! ## C1 — denylist precedence in the path sandbox -/

/-- C1: for every sandbox configuration (so for every combination of the
`global-read` and `global-write` flags), every path argument and every
state of the per-call `allow-outside-root` flags, if the resolved
absolute path lies under a denylist entry then `_resolve_safe_path`,
`_resolve_readable_path` and `_resolve_write_path` all fail with the
path-denied error; no flag can make such a path resolve. -/
theorem c1_denylist_cannot_be_bypassed
    (cfg : SandboxCfg) (path : PyPath) (a1 a2 : Bool)
    (h : ∃ d ∈ cfg.denylist, isUnder (resolveAgainstRoot cfg.root path) d = true) :
    resolveSafePath cfg path = .error "path denied by admin denylist" ∧
    resolveReadablePath cfg path a1 = .error "path denied by admin denylist" ∧
    resolveWritePath cfg path a2 = .error "path denied by admin denylist" := by
  obtain ⟨d, hd, hu⟩ := h
  have hany : cfg.denylist.any (fun d => isUnder (resolveAgainstRoot cfg.root path) d) = true :=
    List.any_eq_true.mpr ⟨d, hd, hu⟩
  refine ⟨?_, ?_, ?_⟩ <;> simp only [resolveSafePath, resolveReadablePath, resolveWritePath,
    hany, if_true]

/-- C1 witness: with every override flag switched on, a path under the
denylisted `/proc` still fails in all three resolvers. -/
theorem c1_denylist_cannot_be_bypassed_witness :
    resolveSafePath ⟨["tmp", "lori"], [["proc"]], [["usr"]], true, true⟩
        (.absolute ["proc", "meminfo"]) = .error "path denied by admin denylist" ∧
    resolveReadablePath ⟨["tmp", "lori"], [["proc"]], [["usr"]], true, true⟩
        (.absolute ["proc", "meminfo"]) true = .error "path denied by admin denylist" ∧
    resolveWritePath ⟨["tmp", "lori"], [["proc"]], [["usr"]], true, true⟩
        (.absolute ["proc", "meminfo"]) true = .error "path denied by admin denylist" :=
  c1_denylist_cannot_be_bypassed _ _ true true ⟨["proc"], by decide, by decide⟩

/-! ## C10 — confirm-required responses never leak `__` keys -/

/-- Keys excluded by a filter are not found afterwards. -/
theorem dictGet_filter_excluded (args : ArgsMap) (p : List Char × Json → Bool)
    (k : List Char) (h : ∀ v, p (k, v) = false) :
    dictGet (args.filter p) k = none := by
  induction args with
  | nil => rfl
  | cons kv t ih =>
    obtain ⟨k1, v1⟩ := kv
    by_cases hk : k1 = k
    · subst hk
      simp [List.filter_cons, h v1, ih]
    · rcases hp : p (k1, v1) with _ | _
      · simp [List.filter_cons, hp, ih]
      · simp [List.filter_cons, hp, dictGet, beq_iff_eq, hk, ih]

/-- C10: every `confirm_required` response built by
`_confirm_required_response` carries `confirm_required: true` and an args
object from which every key starting with `__` — in particular the
internal `__allow_outside_root` override — has been stripped, for every
input args mapping. -/
theorem c10_confirm_response_strips_internal_keys
    (action path reason : List Char) (args : ArgsMap) :
    jGet (confirmRequiredResponse action path args reason) (cs "confirm_required") =
      some (.bool true) ∧
    jGet (confirmRequiredResponse action path args reason) (cs "args") =
      some (.obj (args.filter (fun kv => !(pyStarts (cs "__") kv.1)))) ∧
    (args.filter (fun kv => !(pyStarts (cs "__") kv.1))).all
      (fun kv => !(pyStarts (cs "__") kv.1)) = true ∧
    dictGet (args.filter (fun kv => !(pyStarts (cs "__") kv.1)))
      (cs "__allow_outside_root") = none := by
  refine ⟨rfl, rfl, ?_, ?_⟩
  · apply List.all_eq_true.mpr
    intro kv hkv
    exact (List.mem_filter.mp hkv).2
  · exact dictGet_filter_excluded args _ _ (fun v =>
      show (!(pyStarts (cs "__") (cs "__allow_outside_root"))) = false by decide)

/-! ## C2 — tool-call extraction -/

/-- C2 counterexample: (a) a block whose JSON object violates the claimed
schema (no `tool`, no `args`) is returned as a tool call, not rejected;
(b) when the first block is malformed, extraction yields no tool call even
though a later block holds a well-formed object — so it is the first
block, not "the first well-formed JSON object", that is honoured. -/
theorem c2_counterexample :
    extractToolCall (cs "<tool_call>\x7b\"x\": 1\x7d</tool_call>") =
      some (.obj [(cs "x", .num 1)]) ∧
    extractToolCall
      (cs "<tool_call>\x7boops\x7d</tool_call><tool_call>\x7b\"tool\": \"fs.read\", \"args\": \x7b\x7d\x7d</tool_call>") =
      none :=
  ⟨rfl, rfl⟩

/-- The lazy close search runs past every non-`\x7d` character and stops at
the first close brace whose tail carries the closing tag. -/
theorem findCloseAux_through (acc mid rest : List Char) (h : '}' ∉ mid)
    (hc : startsList closeTagCs (rest.dropWhile pyIsSpace) = true) :
    findCloseAux acc (mid ++ '}' :: rest) = some (acc.reverse ++ mid ++ ['}']) := by
  induction mid generalizing acc with
  | nil => simp [findCloseAux, hc]
  | cons c t ih =>
    have hcne : c ≠ '}' := by
      intro he
      exact h (he ▸ List.mem_cons_self c t)
    have ht : '}' ∉ t := fun hm => h (List.mem_cons_of_mem c hm)
    rw [List.cons_append]
    simp only [findCloseAux]
    rw [if_neg (by simp [hcne])]
    rw [ih (c :: acc) ht]
    simp

/-- C2 amended: extraction honours only the first matching block — the
leftmost `<tool_call>` whose brace-delimited capture closes before a
`</tool_call>` — and returns exactly `json.loads` of that capture, with no
schema validation; everything after the closing tag (further blocks
included) is ignored, and a capture whose JSON fails to load yields no
tool call at all. -/
theorem c2_first_block_json_no_schema (mid tail : List Char) (h : '}' ∉ mid) :
    extractToolCall (openTagCs ++ '{' :: (mid ++ '}' :: (closeTagCs ++ tail))) =
      jsonLoads ('{' :: (mid ++ ['}'])) := by
  have hclose : startsList closeTagCs ((closeTagCs ++ tail).dropWhile pyIsSpace) = true := rfl
  have htry : tryToolCallAt ('<' :: (cs "tool_call>" ++ '{' :: (mid ++ '}' :: (closeTagCs ++ tail)))) =
      some ('{' :: (mid ++ ['}'])) := by
    show findCloseAux ['{'] (mid ++ '}' :: (closeTagCs ++ tail)) = some ('{' :: (mid ++ ['}']))
    rw [findCloseAux_through ['{'] mid (closeTagCs ++ tail) h hclose]
    simp
  have hscan : scanToolCall ('<' :: (cs "tool_call>" ++ '{' :: (mid ++ '}' :: (closeTagCs ++ tail)))) =
      some ('{' :: (mid ++ ['}'])) := by
    rw [scanToolCall, htry]
  show (scanToolCall ('<' :: (cs "tool_call>" ++ '{' :: (mid ++ '}' :: (closeTagCs ++ tail))))).bind
      jsonLoads = jsonLoads ('{' :: (mid ++ ['}']))
  rw [hscan]
  rfl

/-- C2 amended, witness: a schema-violating first block is parsed and
returned while a fully well-formed later block is ignored. -/
theorem c2_first_block_json_no_schema_witness :
    extractToolCall (openTagCs ++ '{' :: (cs "\"x\": 1" ++ '}' :: (closeTagCs ++
        cs "<tool_call>\x7b\"tool\": \"a\", \"args\": \x7b\x7d\x7d</tool_call>"))) =
      jsonLoads ('{' :: (cs "\"x\": 1" ++ ['}'])) :=
  c2_first_block_json_no_schema (cs "\"x\": 1") _ (by decide)

/-! ## C3 — the dispatcher does not filter arguments -/

/-- A name the alias table does not know passes through unchanged. -/
theorem aliasRewrite_not_source (nm : List Char) (a2 : ArgsMap) (h : nm ∉ aliasSources) :
    aliasRewrite nm a2 = (nm, a2) := by
  simp only [aliasSources, List.mem_cons, List.not_mem_nil, or_false, not_or] at h
  obtain ⟨h1, h2, h3, h4, h5, h6, h7, h8, h9, h10, h11, h12, h13, h14, h15, h16⟩ := h
  simp [aliasRewrite, beq_iff_eq, h1, h2, h3, h4, h5, h6, h7, h8, h9, h10, h11, h12,
    h13, h14, h15, h16]

/-- `dict(a or \x7b\x7d)` of an object is the object. -/
theorem pyDictCopy_obj (A : ArgsMap) : pyDictCopy (.obj A) = .ok A := by
  cases A <;> simp [pyDictCopy, pyOrElse, pyTruthy]

/-- `call_tool` on a registered, non-aliased name hands the executor
exactly the raw args. -/
theorem callTool_registered (exec : Nat → List Char → ArgsMap → Except (List Char) Json)
    (idx : Nat) (nm : List Char) (A : ArgsMap)
    (h1 : nm ∈ registryNames) (h2 : nm ∉ aliasSources) :
    callTool exec idx (.str nm) (.obj A) = exec idx nm A := by
  simp [callTool, callToolDispatch, normalizeToolAlias, pyDictCopy_obj,
    aliasRewrite_not_source nm A h2, Except.map, h1]

/-- C3 counterexample: `call_tool` dispatches `fs.read` with an argument
mapping that still carries the undeclared key `bogus` — nothing is
filtered against the declared parameter schema before the executor is
invoked. -/
theorem c3_counterexample :
    callToolDispatch (.str (cs "fs.read"))
        (.obj [(cs "path", .str (cs "x")), (cs "bogus", .num 1)]) =
      .ok (some (cs "fs.read", [(cs "path", .str (cs "x")), (cs "bogus", .num 1)])) ∧
    ¬ (cs "bogus") ∈ declaredParams (cs "fs.read") :=
  ⟨rfl, by decide⟩

/-- C3 amended: after alias normalisation the dispatcher passes the raw
args to the executor unchanged — no key is dropped, declared or not; for
every registered non-alias tool name the executor receives exactly the
mapping the caller sent. -/
theorem c3_args_reach_executor_unfiltered
    (exec : Nat → List Char → ArgsMap → Except (List Char) Json)
    (idx : Nat) (nm : List Char) (A : ArgsMap)
    (h1 : nm ∈ registryNames) (h2 : nm ∉ aliasSources) :
    callTool exec idx (.str nm) (.obj A) = exec idx nm A :=
  callTool_registered exec idx nm A h1 h2

/-- C3 amended, witness: an executor that echoes its args receives the
undeclared key `bogus` intact. -/
theorem c3_args_reach_executor_unfiltered_witness :
    callTool (fun _ _ a => .ok (.obj a)) 0 (.str (cs "fs.read"))
        (.obj [(cs "bogus", .num 1)]) = .ok (.obj [(cs "bogus", .num 1)]) :=
  c3_args_reach_executor_unfiltered _ 0 _ _ (by decide) (by decide)

/-! ## C9 — the shortcut engine swallows tool exceptions -/

/-- A forced call whose dispatch raises leaves exactly the tool-call turn
and the dispatch record, and the engine proceeds with the next call. -/
theorem shortcuts_raise_step (cfg : LoopCfg) (st : AgentSt) (tool : List Char)
    (args : ArgsMap) (rest : List (List Char × ArgsMap)) (e : List Char)
    (h : callTool cfg.exec st.nDispatch (.str tool) (.obj args) = .error e) :
    runShortcutsCore cfg st ((tool, args) :: rest) =
      runShortcutsCore cfg (afterRaisedCall st tool args) rest := by
  simp [runShortcutsCore, processCall, callToolTraced, addAssistantT, afterRaisedCall,
    toolCallText, h]

/-- C9: an exception raised by the execution of a heuristic tool call is
swallowed inside the engine, which proceeds with the next call in its
list (first clause); in particular, when every registered tool body
raises, `_run_heuristic_shortcuts` still walks the whole forced-call list
and returns normally, having appended exactly the tool-call turns (second
clause) — it never propagates an exception to the agent loop (its return
type is an ordinary value). -/
theorem c9_heuristic_engine_swallows_exceptions :
    (∀ (cfg : LoopCfg) (st : AgentSt) (tool : List Char) (args : ArgsMap)
        (rest : List (List Char × ArgsMap)) (e : List Char),
      callTool cfg.exec st.nDispatch (.str tool) (.obj args) = .error e →
      runShortcutsCore cfg st ((tool, args) :: rest) =
        runShortcutsCore cfg (afterRaisedCall st tool args) rest) ∧
    (∀ (cfg : LoopCfg) (st : AgentSt) (calls : List (List Char × ArgsMap)),
      (∀ i n a, ∃ e, cfg.exec i n a = .error e) →
      (∀ c ∈ calls, c.1 ∈ registryNames ∧ c.1 ∉ aliasSources) →
      runShortcutsCore cfg st calls =
        (calls.foldl (fun s c => afterRaisedCall s c.1 c.2) st, none)) := by
  refine ⟨shortcuts_raise_step, ?_⟩
  intro cfg st calls hexec
  induction calls generalizing st with
  | nil => intro _; rfl
  | cons c rest ih =>
    intro hreg
    obtain ⟨t, a⟩ := c
    obtain ⟨hr, ha⟩ := hreg (t, a) (List.mem_cons_self _ _)
    obtain ⟨e, he⟩ := hexec st.nDispatch t a
    have hct : callTool cfg.exec st.nDispatch (.str t) (.obj a) = .error e := by
      rw [callTool_registered cfg.exec st.nDispatch t a hr ha]
      exact he
    rw [shortcuts_raise_step cfg st t a rest e hct]
    rw [ih (afterRaisedCall st t a) (fun c hc => hreg c (List.mem_cons_of_mem _ hc))]
    rfl

/-- C9 witness: with every tool body raising, the engine moves from the
first forced call of a price lookup to the second. -/
theorem c9_heuristic_engine_swallows_exceptions_witness :
    runShortcutsCore cfgBoom mkAgentSt
        [ (cs "crypto.price", [(cs "asset", .str (cs "bitcoin"))])
        , (cs "web.search", [(cs "query", .str (cs "preço atual bitcoin"))]) ] =
      runShortcutsCore cfgBoom
        (afterRaisedCall mkAgentSt (cs "crypto.price") [(cs "asset", .str (cs "bitcoin"))])
        [(cs "web.search", [(cs "query", .str (cs "preço atual bitcoin"))])] :=
  c9_heuristic_engine_swallows_exceptions.1 cfgBoom mkAgentSt _ _ _ (cs "boom") rfl

/-! ## C8 — history persistence and terminal paths -/

/-- C8 counterexample: the final-model-text terminal path returns its
answer without appending anything to the history sink (the source writes
history only after the 12-round loop falls through; the in-loop `return`
and the shortcut `return` skip the write). -/
theorem c8_counterexample :
    (agentRun cfgOla (cs "oi")).map (fun r => (r.savedHistory, r.terminal, r.answer)) =
      .ok (false, .finalText, cs "Olá! Como posso ajudar?") := rfl

/-- C8 amended: the Conversation State reaches the persistent history
sink only in the terminal path that exhausts the round budget; the
heuristic-shortcut answer and the final-model-text answer return without
persisting. -/
theorem c8_history_only_on_exhaustion (cfg : LoopCfg) (st0 : AgentSt)
    (prompt : List Char) (r : RunRes) (h : agentRunFrom cfg st0 prompt = .ok r) :
    r.savedHistory = true ↔ r.terminal = .exhausted := by
  simp only [agentRunFrom] at h
  split at h
  · split at h
    · cases h
      simp
    · simp only [agentRunLoopPhase] at h
      split at h
      · cases h
        simp
      · cases h
      · cases h
        simp
  · simp only [agentRunLoopPhase] at h
    split at h
    · cases h
      simp
    · cases h
    · cases h
      simp

/-- C8 amended, witness: instantiated on a conversation that ends in the
final-text path. -/
theorem c8_history_only_on_exhaustion_witness :
    (match agentRun cfgOla (cs "oi") with
     | .ok r => (r.savedHistory = true ↔ r.terminal = .exhausted)
     | .error _ => False) :=
  c8_history_only_on_exhaustion cfgOla mkAgentSt (cs "oi") _ rfl

/-! ## C5 — the nudge budget: three inferences, then the model text -/

/-- C5 counterexample: after the 1 + 2 nudged inferences the loop returns
the model's own (sanitised) text — two backends that answer different
texts produce different final answers, so no fixed fallback message is
returned. -/
theorem c5_counterexample :
    (agentRun cfgStubborn (cs "use uma ferramenta")).map
        (fun r => (r.answer, r.final.nInfer)) =
      .ok (cs "Não consigo usar a ferramenta.", 3) ∧
    (agentRun cfgStubborn2 (cs "use uma ferramenta")).map (fun r => r.answer) =
      .ok (cs "Desculpe, não vou chamar ferramentas.") :=
  ⟨rfl, rfl⟩

/-- C5 amended: when "tool expected" detection fires, no heuristic rule
matched, and the model never emits an extractable tool call, `Agent.run`
performs exactly 3 inference requests (1 initial + 2 nudges) and then
returns the third model reply itself, sanitised — not a fixed fallback
message — without persisting history. -/
theorem c5_three_inferences_then_model_text (cfg : LoopCfg) (prompt : List Char)
    (hH : heuristicToolCalls (addUserT mkAgentSt prompt) prompt =
      (addUserT mkAgentSt prompt, []))
    (hE : expectsToolUse prompt = true)
    (hM : ∀ i, extractToolCall (cfg.model i) = none) :
    (agentRun cfg prompt).map (fun r => (r.final.nInfer, r.answer, r.terminal, r.savedHistory)) =
      .ok (3, stripInternal (cfg.model 2), .finalText, false) := by
  simp only [agentRun, agentRunFrom, runHeuristicShortcuts, hH, runShortcutsCore,
    List.isEmpty_nil, if_true, agentRunLoopPhase]
  simp [runLoop, runRound, addUserT, addAssistantT, mkAgentSt, hM, hE, Except.map]

/-- C5 amended, witness: a backend that always refuses in plain text is
asked exactly three times and its last reply is the final answer. -/
theorem c5_three_inferences_then_model_text_witness :
    (agentRun cfgStubborn2 (cs "use uma ferramenta")).map
        (fun r => (r.final.nInfer, r.answer, r.terminal, r.savedHistory)) =
      .ok (3, stripInternal (cs "Desculpe, não vou chamar ferramentas."), .finalText, false) :=
  c5_three_inferences_then_model_text cfgStubborn2 (cs "use uma ferramenta") rfl rfl
    (fun _ => rfl)

/-! ## C4 — unregistered tool names are dispatched, not ignored -/

/-- `call_tool` on an unregistered, non-aliased name returns the
unknown-tool error result. -/
theorem callTool_unregistered (exec : Nat → List Char → ArgsMap → Except (List Char) Json)
    (idx : Nat) (nm : List Char) (A : ArgsMap)
    (hreg : nm ∉ registryNames) (hal : nm ∉ aliasSources) :
    callTool exec idx (.str nm) (.obj A) = .ok (unknownToolResult (.str nm)) := by
  simp [callTool, callToolDispatch, normalizeToolAlias, pyDictCopy_obj,
    aliasRewrite_not_source nm A hal, Except.map, hreg]

/-- C4 counterexample: on the same prompt, a well-formed block naming the
unregistered tool `zzz` is dispatched (one `call_tool` invocation, an
unknown-tool error feedback turn, no nudge in the first round), while an
actually block-free turn dispatches nothing — the two behaviours are not
identical, so the unregistered call is not treated as "no tool call". -/
theorem c4_counterexample :
    (agentRun cfgUnknownTool (cs "use uma ferramenta")).map
        (fun r => (r.final.dispatches,
          (r.final.messages.map Turn.content).contains
            (errorFeedbackMsg (cs "unknown tool: zzz")), r.final.nInfer)) =
      .ok ([(.str (cs "zzz"), .obj [])], true, 3) ∧
    (agentRun cfgPlainText (cs "use uma ferramenta")).map
        (fun r => (r.final.dispatches,
          (r.final.messages.map Turn.content).contains
            (errorFeedbackMsg (cs "unknown tool: zzz")), r.final.nInfer)) =
      .ok ([], false, 3) :=
  ⟨rfl, rfl⟩

/-- `Agent.run`'s result handling of an unknown-tool error: error
feedback and the tool-result turn are appended (the retry counter moves
only while budget remains) and the loop continues. -/
theorem processToolResult_unknown (st' : AgentSt) (nm : List Char) :
    processToolResult st' (unknownToolResult (.str nm)) =
    ({ addUserT (addUserT st' (errorFeedbackMsg (cs "unknown tool: " ++ nm)))
        (formatToolResult (unknownToolResult (.str nm))) with
        retries := if st'.retries < 2 then st'.retries + 1 else st'.retries }, .next) := by
  show (if st'.retries < 2
      then (addUserT { addUserT st' (errorFeedbackMsg (cs "unknown tool: " ++ nm)) with
              retries := st'.retries + 1 }
              (formatToolResult (unknownToolResult (.str nm))), RoundOut.next)
      else (addUserT (addUserT st' (errorFeedbackMsg (cs "unknown tool: " ++ nm)))
              (formatToolResult (unknownToolResult (.str nm))), RoundOut.next)) = _
  by_cases hr : st'.retries < 2
  · rw [if_pos hr, if_pos hr]
    rfl
  · rw [if_neg hr, if_neg hr]
    rfl

/-- C4 amended: a well-formed block whose tool name is not in the
registry is not treated as "no tool call": the round dispatches it once,
`call_tool` returns the unknown-tool error result, and the loop appends
the error feedback and the tool-result turn (consuming, when available,
the retry budget) and moves to the next round. -/
theorem c4_unknown_tool_is_dispatched (cfg : LoopCfg) (st : AgentSt) (tc : Json)
    (nm : List Char) (A : ArgsMap)
    (hm : extractToolCall (cfg.model st.nInfer) = some tc)
    (hname : toolNameOf tc = .str nm)
    (hargs : toolArgsOf tc = .obj A)
    (hreg : nm ∉ registryNames) (hal : nm ∉ aliasSources) :
    (runRound cfg st).2 = .next ∧
    (runRound cfg st).1.dispatches = st.dispatches ++ [(.str nm, .obj A)] ∧
    (runRound cfg st).1.messages = st.messages ++
      [ ⟨.assistant, cfg.model st.nInfer⟩
      , ⟨.user, errorFeedbackMsg (cs "unknown tool: " ++ nm)⟩
      , ⟨.user, formatToolResult (unknownToolResult (.str nm))⟩ ] ∧
    (runRound cfg st).1.nInfer = st.nInfer + 1 := by
  have hcall : callTool cfg.exec st.nDispatch (.str nm) (.obj A) =
      .ok (unknownToolResult (.str nm)) :=
    callTool_unregistered cfg.exec st.nDispatch nm A hreg hal
  have hstep : runRound cfg st =
      processToolResult
        { addAssistantT { st with nInfer := st.nInfer + 1 } (cfg.model st.nInfer) with
          nDispatch := st.nDispatch + 1
          dispatches := st.dispatches ++ [(.str nm, .obj A)] }
        (unknownToolResult (.str nm)) := by
    simp only [runRound, hm, hname, hargs, callToolTraced, addAssistantT, hcall]
    rfl
  rw [hstep, processToolResult_unknown]
  refine ⟨rfl, rfl, ?_, rfl⟩
  simp [addUserT, addAssistantT]

/-- C4 amended, witness: the `zzz` call of the counterexample
configuration, one round in. -/
theorem c4_unknown_tool_is_dispatched_witness :
    (runRound cfgUnknownTool mkAgentSt).2 = .next ∧
    (runRound cfgUnknownTool mkAgentSt).1.dispatches =
      mkAgentSt.dispatches ++ [(.str (cs "zzz"), .obj [])] ∧
    (runRound cfgUnknownTool mkAgentSt).1.messages = mkAgentSt.messages ++
      [ ⟨.assistant, cfgUnknownTool.model mkAgentSt.nInfer⟩
      , ⟨.user, errorFeedbackMsg (cs "unknown tool: " ++ cs "zzz")⟩
      , ⟨.user, formatToolResult (unknownToolResult (.str (cs "zzz")))⟩ ] ∧
    (runRound cfgUnknownTool mkAgentSt).1.nInfer = mkAgentSt.nInfer + 1 :=
  c4_unknown_tool_is_dispatched cfgUnknownTool mkAgentSt
    (.obj [(cs "tool", .str (cs "zzz")), (cs "args", .obj [])]) (cs "zzz") []
    rfl rfl rfl (by decide) (by decide)

/-! ## C6 — a remembered approval silences later confirmations

The `_approved_paths` set only ever grows, and no component of the
engine outside `remember_approval` touches it; the lemmas below track it
through every layer. -/

theorem approved_prepareSearchQuery (st : AgentSt) (op cq : List Char) (lim : Int)
    (sf : List (List Char)) :
    ((prepareSearchQuery st op cq lim sf).1).approved = st.approved := rfl

theorem approved_handleTimeDiff (st : AgentSt) (p : List Char) (m : Option PyMatch) :
    ((handleTimeDiff st p m).1).approved = st.approved := rfl

theorem approved_handleTimeLoc (st : AgentSt) (p : List Char) (m : Option PyMatch) :
    ((handleTimeLoc st p m).1).approved = st.approved := rfl

theorem approved_handleTimeBulk (st : AgentSt) (p : List Char) (m : Option PyMatch) :
    ((handleTimeBulk st p m).1).approved = st.approved := by
  simp only [handleTimeBulk]
  split <;> rfl

theorem approved_handleGeoCountries (st : AgentSt) (p : List Char) (m : Option PyMatch) :
    ((handleGeoCountries st p m).1).approved = st.approved := by
  simp only [handleGeoCountries]
  split <;> rfl

theorem approved_of_prepare_eq (st st2 : AgentSt) (op cq : List Char) (lim : Int)
    (sf : List (List Char)) (a : ArgsMap)
    (h : prepareSearchQuery st op cq lim sf = (st2, a)) : st2.approved = st.approved := by
  have h1 := approved_prepareSearchQuery st op cq lim sf
  rw [h] at h1
  exact h1

theorem approved_handleWebSearch (st : AgentSt) (p : List Char) (m : Option PyMatch) :
    ((handleWebSearch st p m).1).approved = st.approved :=
  approved_prepareSearchQuery st p _ 3 []

theorem approved_handlePriceSearch (st : AgentSt) (p : List Char) (m : Option PyMatch) :
    ((handlePriceSearch st p m).1).approved = st.approved := rfl

theorem approved_handleFxConvert (st : AgentSt) (p : List Char) (m : Option PyMatch) :
    ((handleFxConvert st p m).1).approved = st.approved :=
  approved_prepareSearchQuery _ p _ 3 []

theorem approved_handleCorrection (st : AgentSt) (p : List Char) (m : Option PyMatch) :
    ((handleCorrection st p m).1).approved = st.approved := by
  simp only [handleCorrection]
  repeat' split
  all_goals rfl

theorem approved_handleFsPath (st : AgentSt) (p : List Char) (m : Option PyMatch) :
    ((handleFsPath st p m).1).approved = st.approved := rfl

theorem approved_handleHelpTools (st : AgentSt) (p : List Char) (m : Option PyMatch) :
    ((handleHelpTools st p m).1).approved = st.approved := rfl

theorem approved_handleContinents (st : AgentSt) (p : List Char) (m : Option PyMatch) :
    ((handleContinents st p m).1).approved = st.approved := rfl

theorem approved_heuristicRules_handlers :
    ∀ r ∈ heuristicRules, ∀ (st : AgentSt) (p : List Char) (m : Option PyMatch),
      ((r.handler st p m).1).approved = st.approved := by
  intro r hr
  fin_cases hr
  · exact approved_handleTimeDiff
  · exact approved_handleTimeLoc
  · exact approved_handleTimeBulk
  · exact approved_handleGeoCountries
  · exact approved_handleFxConvert
  · exact approved_handlePriceSearch
  · exact approved_handleCorrection
  · exact approved_handleWebSearch
  · exact approved_handleHelpTools
  · exact approved_handleContinents
  · exact approved_handleFsPath
  · exact approved_handleFsPath

theorem approved_htcGo (p : List Char) :
    ∀ rules : List HRule,
      (∀ r ∈ rules, ∀ (st : AgentSt) (m : Option PyMatch),
        ((r.handler st p m).1).approved = st.approved) →
      ∀ st : AgentSt, ((htcGo st p rules).1).approved = st.approved := by
  intro rules
  induction rules with
  | nil => intro _ st; rfl
  | cons rule rest ih =>
    intro hh st
    have hrule := hh rule (List.mem_cons_self _ _)
    have hrest : ∀ r ∈ rest, ∀ (st : AgentSt) (m : Option PyMatch),
        ((r.handler st p m).1).approved = st.approved :=
      fun r hr => hh r (List.mem_cons_of_mem _ hr)
    simp only [htcGo]
    split
    · exact ih hrest st
    · rename_i mm m heqmm
      split
      · exact ih hrest st
      · split
        · exact ih hrest st
        · split
          · exact ih hrest st
          · split
            · rename_i st2 heq
              have h1 := hrule st m
              rw [heq] at h1
              exact (ih hrest st2).trans h1
            · rename_i st2 a heq
              have h1 := hrule st m
              rw [heq] at h1
              exact h1
            · rename_i st2 items heq
              have h1 := hrule st m
              rw [heq] at h1
              split
              · exact (ih hrest st2).trans h1
              · exact h1

theorem approved_heuristicToolCalls (st : AgentSt) (prompt : List Char) :
    ((heuristicToolCalls st prompt).1).approved = st.approved :=
  approved_htcGo _ heuristicRules
    (fun r hr st' m => approved_heuristicRules_handlers r hr st' _ m) st

theorem approved_processCall (cfg : LoopCfg) (st : AgentSt) (tool : List Char)
    (args : ArgsMap) : ((processCall cfg st tool args).1).approved = st.approved := by
  have hct : ∀ (st' : AgentSt) (n a : Json), callToolTraced cfg st' n a =
      ( { st' with
            nDispatch := st'.nDispatch + 1
            dispatches := st'.dispatches ++ [(n, a)] }
      , callTool cfg.exec st'.nDispatch n a) := fun _ _ _ => rfl
  rcases hc1 : callTool cfg.exec (addAssistantT st (toolCallText tool args)).nDispatch
      (Json.str tool) (Json.obj args) with e | r1
  · simp only [processCall, hct, hc1]
    rfl
  · simp only [processCall, hct, hc1]
    have happr : (addAssistantT st (toolCallText tool args)).approved = st.approved := rfl
    generalize hA : addAssistantT st (toolCallText tool args) = stA at happr ⊢
    rw [← happr]
    by_cases c1 : (tool == cs "sys.time") = true ∧ isObj r1 = true ∧
      pyTruthy (jGetD r1 (cs "ok") Json.null) = true
    · rw [if_pos c1]
      rfl
    rw [if_neg c1]
    by_cases c2 : (tool == cs "geo.countries") = true ∧ isObj r1 = true ∧
      pyTruthy (jGetD r1 (cs "ok") Json.null) = true
    · rw [if_pos c2]
      repeat' split
      all_goals rfl
    rw [if_neg c2]
    by_cases c3 : (tool == cs "help.tools") = true ∧ isObj r1 = true ∧
      pyTruthy (jGetD r1 (cs "ok") Json.null) = true
    · rw [if_pos c3]
      repeat' split
      all_goals rfl
    rw [if_neg c3]
    by_cases c4 : (tool == cs "geo.continents") = true ∧ isObj r1 = true ∧
      pyTruthy (jGetD r1 (cs "ok") Json.null) = true
    · rw [if_pos c4]
      repeat' split
      all_goals rfl
    rw [if_neg c4]
    by_cases c5 : (tool == cs "fs.list") = true ∧ isObj r1 = true ∧
      pyTruthy (jGetD r1 (cs "ok") Json.null) = true
    · rw [if_pos c5]
      repeat' split
      all_goals rfl
    rw [if_neg c5]
    by_cases c6 : (tool == cs "web.search") = true ∧ isObj r1 = true ∧
      pyTruthy (jGetD r1 (cs "ok") Json.null) = true
    · rw [if_pos c6]
      repeat' split
      all_goals try rfl
      all_goals (rename_i heq
                 first
                   | (rw [Prod.mk.injEq] at heq
                      obtain ⟨h1, -⟩ := heq
                      subst h1
                      rfl)
                   | (rename_i heq2
                      rw [Prod.mk.injEq] at heq2
                      obtain ⟨h1, -⟩ := heq2
                      subst h1
                      rfl))
    rw [if_neg c6]
    by_cases c7 : (tool == cs "crypto.price") = true ∧ isObj r1 = true
    · rw [if_pos c7]
      repeat' split
      all_goals rfl
    rw [if_neg c7]
    by_cases c8 : (tool == cs "fx.rate") = true ∧ isObj r1 = true
    · rw [if_pos c8]
      repeat' split
      all_goals rfl
    rw [if_neg c8]
    by_cases c9 : (tool == cs "sys.time.bulk") = true ∧ isObj r1 = true ∧
      pyTruthy (jGetD r1 (cs "ok") Json.null) = true
    · rw [if_pos c9]
      repeat' split
      all_goals rfl
    rw [if_neg c9]
    rfl

theorem approved_runShortcutsCore (cfg : LoopCfg) :
    ∀ (calls : List (List Char × ArgsMap)) (st : AgentSt),
      ((runShortcutsCore cfg st calls).1).approved = st.approved := by
  intro calls
  induction calls with
  | nil => intro st; rfl
  | cons c rest ih =>
    intro st
    simp only [runShortcutsCore]
    split
    · rename_i st2 ans heq
      have h1 := approved_processCall cfg st c.1 c.2
      rw [heq] at h1
      exact h1
    · rename_i st2 heq
      have h1 := approved_processCall cfg st c.1 c.2
      rw [heq] at h1
      exact (ih st2).trans h1

theorem approved_runHeuristicShortcuts (cfg : LoopCfg) (st : AgentSt)
    (prompt : List Char) :
    ((runHeuristicShortcuts cfg st prompt).1).approved = st.approved := by
  simp only [runHeuristicShortcuts]
  split
  · rename_i st2 ans heq
    have h1 := approved_runShortcutsCore cfg (heuristicToolCalls st prompt).2
      (heuristicToolCalls st prompt).1
    rw [heq] at h1
    exact h1.trans (approved_heuristicToolCalls st prompt)
  · rename_i st2 heq
    have h1 := approved_runShortcutsCore cfg (heuristicToolCalls st prompt).2
      (heuristicToolCalls st prompt).1
    rw [heq] at h1
    exact h1.trans (approved_heuristicToolCalls st prompt)

theorem mem_rememberApproval (cfg : LoopCfg) (st : AgentSt) (pj : Json)
    (d : List String) (hd : d ∈ st.approved) :
    d ∈ (rememberApproval cfg st pj).approved := by
  simp only [rememberApproval]
  repeat' split
  all_goals first
    | exact hd
    | exact List.mem_append_left _ hd

theorem mem_handleConfirm (cfg : LoopCfg) (st : AgentSt) (n a r : Json)
    (d : List String) (hd : d ∈ st.approved) :
    d ∈ ((handleConfirm cfg st n a r).1).approved := by
  simp only [handleConfirm, callToolTraced]
  repeat' split
  all_goals first
    | exact hd
    | exact mem_rememberApproval cfg _ _ d hd
    | (rename_i heq
       rw [Prod.mk.injEq] at heq
       obtain ⟨h1, -⟩ := heq
       subst h1
       first
         | exact hd
         | exact mem_rememberApproval cfg _ _ d hd)

theorem processToolResult_ghost (st : AgentSt) (r : Json) :
    ((processToolResult st r).1).approved = st.approved ∧
    ((processToolResult st r).1).nPrompt = st.nPrompt ∧
    ((processToolResult st r).1).dispatches = st.dispatches := by
  simp only [processToolResult, addUserT]
  repeat' split
  all_goals exact ⟨rfl, rfl, rfl⟩

theorem mem_runRound (cfg : LoopCfg) (st : AgentSt) (d : List String)
    (hd : d ∈ st.approved) : d ∈ ((runRound cfg st).1).approved := by
  simp only [runRound, addAssistantT, addUserT]
  split
  · split
    · exact hd
    · exact hd
  · rename_i tc heqm
    split
    · rename_i stc e heq
      simp only [callToolTraced] at heq
      rw [Prod.mk.injEq] at heq
      obtain ⟨h1, -⟩ := heq
      subst h1
      exact hd
    · rename_i stc res heq
      simp only [callToolTraced] at heq
      rw [Prod.mk.injEq] at heq
      obtain ⟨h1, -⟩ := heq
      subst h1
      rw [(processToolResult_ghost _ _).1]
      exact mem_handleConfirm cfg _ _ _ _ d hd

theorem mem_runLoop (cfg : LoopCfg) :
    ∀ (n : Nat) (st : AgentSt) (d : List String), d ∈ st.approved →
      d ∈ ((runLoop cfg n st).1).approved := by
  intro n
  induction n with
  | zero => intro st d hd; exact hd
  | succ n ih =>
    intro st d hd
    simp only [runLoop]
    split
    · rename_i st2 heq
      refine ih st2 d ?_
      have h1 := mem_runRound cfg st d hd
      rw [heq] at h1
      exact h1
    · rename_i st2 a heq
      have h1 := mem_runRound cfg st d hd
      rw [heq] at h1
      exact h1
    · rename_i st2 e heq
      have h1 := mem_runRound cfg st d hd
      rw [heq] at h1
      exact h1

theorem mem_agentRunLoopPhase (cfg : LoopCfg) (st1 : AgentSt) (prompt : List Char)
    (succ : Bool) (r : RunRes) (h : agentRunLoopPhase cfg st1 prompt succ = .ok r)
    (d : List String) (hd : d ∈ st1.approved) : d ∈ r.final.approved := by
  simp only [agentRunLoopPhase] at h
  split at h
  · rename_i st2 a heq
    cases h
    have h1 := mem_runLoop cfg 12
      { st1 with
          expecting := expectsToolUse prompt
          toolSuccess := succ
          retries := 0 } d hd
    rw [heq] at h1
    exact h1
  · cases h
  · rename_i st2 heq
    cases h
    have h1 := mem_runLoop cfg 12
      { st1 with
          expecting := expectsToolUse prompt
          toolSuccess := succ
          retries := 0 } d hd
    rw [heq] at h1
    exact h1

theorem mem_agentRunFrom (cfg : LoopCfg) (st0 : AgentSt) (prompt : List Char)
    (r : RunRes) (h : agentRunFrom cfg st0 prompt = .ok r)
    (d : List String) (hd : d ∈ st0.approved) : d ∈ r.final.approved := by
  simp only [agentRunFrom] at h
  have hsh := approved_runHeuristicShortcuts cfg (addUserT st0 prompt) prompt
  have hd1 : d ∈ ((runHeuristicShortcuts cfg (addUserT st0 prompt) prompt).1).approved := by
    rw [hsh]
    exact hd
  split at h
  · rename_i x ans heq
    split at h
    · cases h
      exact hd1
    · exact mem_agentRunLoopPhase cfg _ prompt true r h d hd1
  · rename_i x heq
    exact mem_agentRunLoopPhase cfg _ prompt false r h d hd1

/-- C6: once `remember_approval` has recorded a directory, any later
round of the same session whose `confirm_required` result names a path
resolving under that directory bypasses the confirmation handshake: the
round consumes no user input and dispatches the call twice — the original
call, then the silent re-invocation with the `__allow_outside_root`
override; moreover `_approved_paths` only ever grows across a whole
`Agent.run`, so the recorded directory keeps this effect for the rest of
the session. -/
theorem c6_remembered_approval_bypasses_confirmation
    (cfg : LoopCfg) (st : AgentSt) (tc res : Json) (s : List Char) (t d : List String)
    (hd : d ∈ st.approved)
    (hm : extractToolCall (cfg.model st.nInfer) = some tc)
    (hok : callTool cfg.exec st.nDispatch (toolNameOf tc) (toolArgsOf tc) = .ok res)
    (hcr : pyTruthy (jGetD res (cs "confirm_required") .null) = true)
    (hpath : jGetD res (cs "path") .null = .str s)
    (hne : s ≠ [])
    (hres : cfg.resolve s = some t)
    (hund : d.isPrefixOf t = true) :
    (runRound cfg st).1.nPrompt = st.nPrompt ∧
    (runRound cfg st).1.dispatches =
      st.dispatches ++ [(toolNameOf tc, toolArgsOf tc),
                        (toolNameOf tc, overrideArgs (toolArgsOf tc))] ∧
    (∀ (st0 : AgentSt) (prompt : List Char) (r : RunRes),
       agentRunFrom cfg st0 prompt = Except.ok r →
       ∀ d2 ∈ st0.approved, d2 ∈ r.final.approved) := by
  have hobj : isObj res = true := by
    cases res <;> first
      | rfl
      | (exfalso; revert hcr; simp [jGetD, jGet, pyTruthy])
  have hne' : s.isEmpty = false := by
    cases s
    · exact absurd rfl hne
    · rfl
  have happ : isPathApproved cfg st.approved (jGetD res (cs "path") .null) = true := by
    rw [hpath]
    simp only [isPathApproved, pyTruthy, hne', hres, Bool.not_false, Bool.false_eq_true,
      if_false]
    exact List.any_eq_true.mpr ⟨d, hd, hund⟩
  have hmono : ∀ (st0 : AgentSt) (prompt : List Char) (r : RunRes),
      agentRunFrom cfg st0 prompt = Except.ok r →
      ∀ d2 ∈ st0.approved, d2 ∈ r.final.approved :=
    fun st0 prompt r h d2 hd2 => mem_agentRunFrom cfg st0 prompt r h d2 hd2
  rcases hc2 : callTool cfg.exec (st.nDispatch + 1) (toolNameOf tc)
      (overrideArgs (toolArgsOf tc)) with e2 | r2
  · have hstep : runRound cfg st = processToolResult
        { addAssistantT { st with nInfer := st.nInfer + 1 } (cfg.model st.nInfer) with
            nDispatch := st.nDispatch + 2
            dispatches := st.dispatches ++ [(toolNameOf tc, toolArgsOf tc),
                                            (toolNameOf tc, overrideArgs (toolArgsOf tc))] }
        (.obj [(cs "ok", .bool false), (cs "error", .str e2)]) := by
      simp only [runRound, hm, callToolTraced, addAssistantT, hok, handleConfirm, hobj,
        hcr, happ, hc2]
      simp [happ, hobj, hcr]
    rw [hstep]
    exact ⟨(processToolResult_ghost _ _).2.1, (processToolResult_ghost _ _).2.2, hmono⟩
  · have hstep : runRound cfg st = processToolResult
        { addAssistantT { st with nInfer := st.nInfer + 1 } (cfg.model st.nInfer) with
            nDispatch := st.nDispatch + 2
            dispatches := st.dispatches ++ [(toolNameOf tc, toolArgsOf tc),
                                            (toolNameOf tc, overrideArgs (toolArgsOf tc))] }
        r2 := by
      simp only [runRound, hm, callToolTraced, addAssistantT, hok, handleConfirm, hobj,
        hcr, happ, hc2]
      simp [happ, hobj, hcr]
    rw [hstep]
    exact ⟨(processToolResult_ghost _ _).2.1, (processToolResult_ghost _ _).2.2, hmono⟩

/-- C6 witness: with `/root` already approved, the `fs.write` on
`/root/file` that comes back `confirm_required` is re-run silently with
the override, and the approval survives a complete later run. -/
theorem c6_remembered_approval_bypasses_confirmation_witness :
    (runRound cfgBypass stApprovedRoot).1.nPrompt = stApprovedRoot.nPrompt ∧
    (runRound cfgBypass stApprovedRoot).1.dispatches =
      stApprovedRoot.dispatches ++
        [ ( toolNameOf (.obj [ (cs "tool", .str (cs "fs.write"))
                             , (cs "args", .obj [ (cs "path", .str (cs "/root/file"))
                                                , (cs "content", .str (cs "..."))])])
          , toolArgsOf (.obj [ (cs "tool", .str (cs "fs.write"))
                             , (cs "args", .obj [ (cs "path", .str (cs "/root/file"))
                                                , (cs "content", .str (cs "..."))])]))
        , ( toolNameOf (.obj [ (cs "tool", .str (cs "fs.write"))
                             , (cs "args", .obj [ (cs "path", .str (cs "/root/file"))
                                                , (cs "content", .str (cs "..."))])])
          , overrideArgs (toolArgsOf
              (.obj [ (cs "tool", .str (cs "fs.write"))
                    , (cs "args", .obj [ (cs "path", .str (cs "/root/file"))
                                       , (cs "content", .str (cs "..."))])])))] ∧
    (match agentRunFrom cfgBypass stApprovedRoot (cs "tudo bem?") with
     | .ok r => ["root"] ∈ r.final.approved
     | .error _ => False) := by
  have h := c6_remembered_approval_bypasses_confirmation cfgBypass stApprovedRoot
    (.obj [ (cs "tool", .str (cs "fs.write"))
          , (cs "args", .obj [ (cs "path", .str (cs "/root/file"))
                             , (cs "content", .str (cs "..."))])])
    confirmWriteResult (cs "/root/file") ["root", "file"] ["root"]
    (by decide) rfl rfl rfl rfl (by decide) rfl (by decide)
  refine ⟨h.1, h.2.1, ?_⟩
  cases hrun : agentRunFrom cfgBypass stApprovedRoot (cs "tudo bem?") with
  | ok r => exact h.2.2 stApprovedRoot (cs "tudo bem?") r hrun ["root"] (by decide)
  | error e =>
    have hne2 : (agentRunFrom cfgBypass stApprovedRoot (cs "tudo bem?")).toOption.isSome
        = true := rfl
    rw [hrun] at hne2
    simp [Except.toOption] at hne2

/-! ## C7 — denied confirmation: one dispatch, `user_denied`, no more
nudging -/

/-- `Agent.run`'s result handling of the substituted `user_denied`
result: the tool-result turn is appended, "tool expected" mode is
cleared, and the loop continues. -/
theorem processToolResult_user_denied (st' : AgentSt) :
    processToolResult st' userDeniedResult =
    ({ addUserT st' (formatToolResult userDeniedResult) with expecting := false }, .next) :=
  rfl

/-- C7: when a dispatched call comes back `confirm_required` for a path
not already approved and the caller denies, the dispatcher is invoked
exactly once for that call, the appended tool-result turn is the
`user_denied` result, "tool expected" mode is cleared, and exactly one
confirmation prompt was consumed. -/
theorem c7_denial_dispatches_once (cfg : LoopCfg) (st : AgentSt) (tc res : Json)
    (hm : extractToolCall (cfg.model st.nInfer) = some tc)
    (hok : callTool cfg.exec st.nDispatch (toolNameOf tc) (toolArgsOf tc) = .ok res)
    (hcr : pyTruthy (jGetD res (cs "confirm_required") .null) = true)
    (hna : isPathApproved cfg st.approved (jGetD res (cs "path") .null) = false)
    (hdeny : yesList.contains (pyLower (pyStrip (cfg.userIn st.nPrompt))) = false) :
    (runRound cfg st).2 = .next ∧
    (runRound cfg st).1.dispatches = st.dispatches ++ [(toolNameOf tc, toolArgsOf tc)] ∧
    (runRound cfg st).1.messages = st.messages ++
      [ ⟨.assistant, cfg.model st.nInfer⟩
      , ⟨.user, formatToolResult userDeniedResult⟩ ] ∧
    (runRound cfg st).1.expecting = false ∧
    (runRound cfg st).1.nPrompt = st.nPrompt + 1 ∧
    formatToolResult userDeniedResult =
      cs "<tool_result>\x7b\"ok\": false, \"error\": \"user_denied\"\x7d</tool_result>" := by
  have hobj : isObj res = true := by
    cases res <;> first
      | rfl
      | (exfalso; revert hcr; simp [jGetD, jGet, pyTruthy])
  have hstep : runRound cfg st =
      processToolResult
        { addAssistantT { st with nInfer := st.nInfer + 1 } (cfg.model st.nInfer) with
          nDispatch := st.nDispatch + 1
          dispatches := st.dispatches ++ [(toolNameOf tc, toolArgsOf tc)]
          nPrompt := st.nPrompt + 1 }
        userDeniedResult := by
    simp only [runRound, hm, callToolTraced, addAssistantT, hok, handleConfirm, hobj,
      hcr, hna, hdeny]
    simp [hna, hdeny, hobj, hcr]
  rw [hstep, processToolResult_user_denied]
  refine ⟨rfl, rfl, ?_, rfl, rfl, rfl⟩
  simp [addUserT, addAssistantT]

/-- C7 witness: the interactive denial of an `fs.write` outside the
root. -/
theorem c7_denial_dispatches_once_witness :
    (runRound cfgDeny mkAgentSt).2 = .next ∧
    (runRound cfgDeny mkAgentSt).1.dispatches = mkAgentSt.dispatches ++
      [(toolNameOf (.obj [ (cs "tool", .str (cs "fs.write"))
                         , (cs "args", .obj [ (cs "path", .str (cs "/root/file"))
                                            , (cs "content", .str (cs "..."))])]),
        toolArgsOf (.obj [ (cs "tool", .str (cs "fs.write"))
                         , (cs "args", .obj [ (cs "path", .str (cs "/root/file"))
                                            , (cs "content", .str (cs "..."))])]))] ∧
    (runRound cfgDeny mkAgentSt).1.messages = mkAgentSt.messages ++
      [ ⟨.assistant, cfgDeny.model mkAgentSt.nInfer⟩
      , ⟨.user, formatToolResult userDeniedResult⟩ ] ∧
    (runRound cfgDeny mkAgentSt).1.expecting = false ∧
    (runRound cfgDeny mkAgentSt).1.nPrompt = mkAgentSt.nPrompt + 1 ∧
    formatToolResult userDeniedResult =
      cs "<tool_result>\x7b\"ok\": false, \"error\": \"user_denied\"\x7d</tool_result>" :=
  c7_denial_dispatches_once cfgDeny mkAgentSt _ confirmWriteResult rfl rfl rfl rfl rfl

end Lori
